import Mathlib

/-!
# Verification of `scripts/cve_watch.py`

A shallow embedding of the CVE-watch script: a batch job that fetches
recently published CVEs from the NVD API, normalizes and tags them,
deduplicates against a persisted store of already-posted ids, and posts
the new ones to a Slack webhook.

Modelling conventions:
* JSON values parsed by the script are modelled by the inductive `JValue`.
  JSON numbers are carried as rationals; Python's decimal rendering of
  floats is abstracted by `toString` on the rational (no claim depends on
  the textual rendering of a number).
* Python truthiness (`or` defaulting, `if not x`) is modelled by `truthy`.
* Fields that the dataclasses annotate as `str` (ids, urls, published
  timestamps) are read through `pyStr`, Python's `str()` conversion, at
  the points where the script coerces or stores them.
* The network is abstracted by a function giving, for each request and
  each attempt number, the outcome of that attempt (`AttemptResult`).
  Wall-clock sleeps are recorded as data (the list of backoff durations).
* File and webhook side effects of `main` are recorded as an `Event`
  trace.
-/

namespace CveWatch

/-- A JSON value, as produced by `response.json()` / `json.load` /
`yaml.safe_load` in the script. -/
inductive JValue where
  | null
  | str (s : String)
  | num (q : Rat)
  | bool (b : Bool)
  | arr (xs : List JValue)
  | obj (fields : List (String × JValue))

/-- Python truthiness of a JSON value: `None`, `""`, `0`, `False`, `[]`
and `{}` are falsy, everything else is truthy. -/
def truthy : JValue → Bool
  | .null => false
  | .str s => s ≠ ""
  | .num q => q ≠ 0
  | .bool b => b
  | .arr xs => ¬ xs.isEmpty
  | .obj fs => ¬ fs.isEmpty

/-- Lookup of a key in a JSON object's field list (Python dict keys are
unique, so first-match lookup agrees with dict lookup). -/
def lookupField : List (String × JValue) → String → Option JValue
  | [], _ => none
  | (k, v) :: rest, key => if k == key then some v else lookupField rest key

/-- Model of `d.get(key)`: `none` when the key is absent (or the value is not a
dict, which would raise in Python and is outside the modelled inputs). -/
def jGet : JValue → String → Option JValue
  | .obj fields, key => lookupField fields key
  | _, _ => none

/-- Model of `d.get(key, default)`. -/
def jGetD (v : JValue) (key : String) (default : JValue) : JValue :=
  match jGet v key with
  | some w => w
  | none => default

/-- Model of `d.get(key, default) or fallback` — Python `or` replaces a falsy
value by the fallback. -/
def jOrElse (v : Option JValue) (fallback : JValue) : JValue :=
  match v with
  | some w => if truthy w then w else fallback
  | none => fallback

/-- Model of `v or fallback` on a value already in hand. -/
def jOrElseV (v : JValue) (fallback : JValue) : JValue :=
  if truthy v then v else fallback

/-- The element list of a JSON array (the script only iterates JSON
arrays here; iterating a non-list would raise in Python). -/
def jArrList : JValue → List JValue
  | .arr xs => xs
  | _ => []

/-- Python `str()` of a JSON value.  The rendering of numbers and
containers is abstracted; every claim only applies it to strings, where
it is the identity. -/
def pyStr : JValue → String
  | .null => "None"
  | .str s => s
  | .num q => toString q
  | .bool b => if b then "True" else "False"
  | .arr _ => "[...]"
  | .obj _ => "\x7b...\x7d"

/-- Model of `v or default` where the script stores the result in a `str`-typed
dataclass field: the truthy value is read as its string. -/
def pyOrStr (v : Option JValue) (default : String) : String :=
  match v with
  | some w => if truthy w then pyStr w else default
  | none => default

/-- Model of `str.lower()`, character-wise (the watchlist keywords and CVE texts
the script compares are ASCII; Python's full Unicode case mapping is out
of scope). -/
def strLower (s : String) : String :=
  ⟨s.data.map Char.toLower⟩

/-- Model of `str.strip()`: removes leading and trailing whitespace. -/
def strTrim (s : String) : String :=
  ⟨((s.data.dropWhile Char.isWhitespace).reverse.dropWhile Char.isWhitespace).reverse⟩

/-- Python `<` on strings: lexicographic comparison by code point. -/
def charListLt : List Char → List Char → Bool
  | [], [] => false
  | [], _ :: _ => true
  | _ :: _, [] => false
  | a :: as, b :: bs =>
    if a.toNat < b.toNat then true
    else if b.toNat < a.toNat then false
    else charListLt as bs

/-- Python `<=` on strings: lexicographic comparison by code point. -/
def charListLe : List Char → List Char → Bool
  | [], _ => true
  | _ :: _, [] => false
  | a :: as, b :: bs =>
    if a.toNat < b.toNat then true
    else if b.toNat < a.toNat then false
    else charListLe as bs

/-- Model of `a < b` on Python strings. -/
def strLt (a b : String) : Bool := charListLt a.data b.data

/-- Model of `a <= b` on Python strings. -/
def strLe (a b : String) : Bool := charListLe a.data b.data

/-- Model of `dataclass CvssInfo` (`version: str`, `base_score: float | None`,
`severity: str | None`). -/
structure CvssInfo where
  version : String
  base_score : Option Rat
  severity : Option String
deriving Repr, DecidableEq

/-- Model of `dataclass CveItem`. -/
structure CveItem where
  cve_id : String
  published : String
  cvss : CvssInfo
  summary : String
  tags : List String
  references : List String
  nvd_url : String
deriving Repr, DecidableEq

/-- Model of `baseScore` read into the `float | None` field: the numeric value
when the entry holds a number. -/
def jNumOpt : Option JValue → Option Rat
  | some (.num q) => some q
  | _ => none

/-- Model of `baseSeverity` read into the `str | None` field: the string value
when the entry holds a string. -/
def jStrOpt : Option JValue → Option String
  | some (.str s) => some s
  | _ => none

/-- The priority order of CVSS metric groups in `_extract_cvss`. -/
def metricKeys : List String := ["cvssMetricV31", "cvssMetricV30", "cvssMetricV2"]

/-- Model of `metrics.get(key) or []` inside `_extract_cvss`. -/
def entriesFor (metrics : JValue) (key : String) : JValue :=
  jOrElse (jGet metrics key) (.arr [])

/-- The `CvssInfo` built from the first entry of a non-empty metric
group: `cvss_data = (entries[0] or {}).get("cvssData", {})` and the three
field reads. -/
def infoOfEntry (entry : JValue) : CvssInfo :=
  let cvss_data := jGetD (jOrElseV entry (.obj [])) "cvssData" (.obj [])
  { version := pyStr (jGetD cvss_data "version" (.str ""))
    base_score := jNumOpt (jGet cvss_data "baseScore")
    severity := jStrOpt (jGet cvss_data "baseSeverity") }

/-- The loop of `_extract_cvss` over the metric keys. -/
def extractCvssGo (metrics : JValue) : List String → CvssInfo
  | [] => { version := "N/A", base_score := none, severity := none }
  | key :: rest =>
    let entries := entriesFor metrics key
    if truthy entries then infoOfEntry ((jArrList entries).headD .null)
    else extractCvssGo metrics rest

/-- Model of `_extract_cvss(cve)`. -/
def extractCvss (cve : JValue) : CvssInfo :=
  extractCvssGo (jGetD cve "metrics" (.obj [])) metricKeys

/-- Model of `_extract_summary(cve)`. -/
def extractSummary (cve : JValue) : String :=
  let descriptions := jArrList (jGetD cve "descriptions" (.arr []))
  match descriptions.find? (fun entry =>
      (match jGet entry "lang" with
       | some (.str s) => s == "en"
       | _ => false)
      && truthy (jGetD entry "value" .null)) with
  | some entry => strTrim (pyStr (jGetD entry "value" .null))
  | none =>
    match descriptions with
    | [] => ""
    | first :: _ => strTrim (pyStr (jGetD (jOrElseV first (.obj [])) "value" (.str "")))

/-- Model of `_extract_references(cve)` (only ever called with the default
`limit = 3`). -/
def extractReferences (cve : JValue) : List String :=
  let refs := jArrList (jOrElse (jGet cve "references") (.arr []))
  (refs.filterMap (fun r =>
    match jGet r "url" with
    | some v => if truthy v then some (pyStr v) else none
    | none => none)).take 3

/-- Model of `needle in haystack` on Python strings: `needle` occurs as a
contiguous substring of `haystack`. -/
def strContains (haystack needle : String) : Bool :=
  (List.range (haystack.toList.length + 1)).any
    (fun i => needle.toList.isPrefixOf (haystack.toList.drop i))

/-- Tag rules: the `tag_rules` mapping of the watchlist, in mapping
(= insertion) order.  A `null` keyword list in the file behaves as `[]`
(the script reads `keywords or []`), so keyword lists are modelled as
plain lists of strings. -/
abbrev TagRules := List (String × List String)

/-- Model of `_tag_item(summary, references, tag_rules)`. -/
def tagItem (summary : String) (references : List String) (tag_rules : TagRules) : List String :=
  let corpus := strLower (String.intercalate " " (summary :: references))
  tag_rules.foldl
    (fun tags rule =>
      if rule.2.any (fun keyword => strContains corpus (strLower keyword)) then
        tags ++ [rule.1]
      else tags)
    []

/-- Model of `_normalize_item(cve, tag_rules)`. -/
def normalizeItem (cve : JValue) (tag_rules : TagRules) : CveItem :=
  let cve_id := pyOrStr (jGet cve "id") "UNKNOWN"
  let published := pyOrStr (jGet cve "published") (pyOrStr (jGet cve "lastModified") "")
  let summary := extractSummary cve
  let references := extractReferences cve
  let cvss := extractCvss cve
  let tags := tagItem summary references tag_rules
  { cve_id := cve_id
    published := published
    cvss := cvss
    summary := summary
    tags := tags
    references := references
    nvd_url := "https://nvd.nist.gov/vuln/detail/" ++ cve_id }

/-! ## `_request_with_retry` -/

/-- Model of `MAX_RETRIES` constant. -/
def MAX_RETRIES : Nat := 3

/-- The outcome of one attempted HTTP GET: either `requests.get` raises a
`requests.RequestException` (carrying its message), or it returns a
response with a status code and a (parsed) JSON body. -/
inductive AttemptResult where
  | netError (msg : String)
  | http (status : Nat) (body : JValue)

/-- An error escaping `_request_with_retry`:
* `netFail msg` — the `RuntimeError(f"NVD request failed: {exc}")` raised
  on a network failure at the final attempt;
* `httpStatus s` — the `requests.HTTPError` raised by
  `response.raise_for_status()`;
* `exhausted` — the `RuntimeError("NVD request failed after retries.")`
  after the loop (unreachable in practice). -/
inductive ReqError where
  | netFail (msg : String)
  | httpStatus (status : Nat)
  | exhausted
deriving Repr, DecidableEq

/-- The transient status set `{429, 500, 502, 503, 504}`. -/
def transientStatuses : List Nat := [429, 500, 502, 503, 504]

/-- Whether an attempt outcome is treated as transient by the retry
loop: a network-level failure, or an HTTP status in the transient set. -/
def transientOutcome : AttemptResult → Bool
  | .netError _ => true
  | .http s _ => transientStatuses.contains s

/-- Model of `response.raise_for_status()`: raises `HTTPError` exactly when the
status code is in `[400, 600)`. -/
def raiseForStatus (status : Nat) : Option ReqError :=
  if 400 ≤ status ∧ status < 600 then some (.httpStatus status) else none

/-- The state of the retry loop: either still looping (having slept the
recorded backoffs) or finished with a result. -/
inductive RetrySt where
  | running (sleeps : List Nat)
  | finished (result : Except ReqError JValue) (sleeps : List Nat)

/-- One iteration of the `for attempt in range(1, MAX_RETRIES + 1)` loop
of `_request_with_retry`, given the outcome of each attempt. -/
def retryStep (attempts : Nat → AttemptResult) (st : RetrySt) (attempt : Nat) : RetrySt :=
  match st with
  | .finished .. => st
  | .running sleeps =>
    match attempts attempt with
    | .netError msg =>
      if attempt == MAX_RETRIES then .finished (.error (.netFail msg)) sleeps
      else .running (sleeps ++ [2 ^ attempt])
    | .http status body =>
      if transientStatuses.contains status then
        if attempt == MAX_RETRIES then
          match raiseForStatus status with
          | some e => .finished (.error e) sleeps
          | none => .running (sleeps ++ [2 ^ attempt])
        else .running (sleeps ++ [2 ^ attempt])
      else
        match raiseForStatus status with
        | some e => .finished (.error e) sleeps
        | none => .finished (.ok body) sleeps

/-- Model of `range(1, MAX_RETRIES + 1)` = `[1, 2, 3]`. -/
def attemptNumbers : List Nat := List.range' 1 MAX_RETRIES

/-- Model of `_request_with_retry`, abstracted over the outcome of each attempt;
returns the result together with the list of backoff sleeps performed. -/
def requestWithRetry (attempts : Nat → AttemptResult) : Except ReqError JValue × List Nat :=
  match attemptNumbers.foldl (retryStep attempts) (.running []) with
  | .finished r sleeps => (r, sleeps)
  | .running sleeps => (.error .exhausted, sleeps)

/-! ## `_fetch_cves` -/

/-- The `(query, severity)` request pairs, in request order:
`for query in queries: for severity in ("HIGH", "CRITICAL")`. -/
def requestPairs (queries : List String) : List (String × String) :=
  queries.flatMap (fun q => [(q, "HIGH"), (q, "CRITICAL")])

/-- The network, abstracted: for each `(query, severity)` request, the
outcome of each attempt. -/
abbrev Network := String → String → Nat → AttemptResult

/-- Model of `data.get("vulnerabilities", []) or []`. -/
def vulnsOf (data : JValue) : List JValue :=
  jArrList (jOrElse (jGet data "vulnerabilities") (.arr []))

/-- Model of `(entry or {}).get("cve", {})`. -/
def cveOfEntry (entry : JValue) : JValue :=
  jGetD (jOrElseV entry (.obj [])) "cve" (.obj [])

/-- Model of `items[item.cve_id] = item` on the insertion-ordered dict
`items : dict[str, CveItem]`: an existing key keeps its position and gets
the new value, a new key is appended. -/
def dictInsert (d : List (String × CveItem)) (item : CveItem) : List (String × CveItem) :=
  if d.any (fun p => p.1 == item.cve_id) then
    d.map (fun p => if p.1 == item.cve_id then (p.1, item) else p)
  else d ++ [(item.cve_id, item)]

/-- Stable insertion into a sorted list: `x` is placed before the first
element it must strictly precede, hence after all elements it ties with. -/
def insertBy (lt : α → α → Bool) (x : α) : List α → List α
  | [] => [x]
  | y :: ys => if lt x y then x :: y :: ys else y :: insertBy lt x ys

/-- Python's stable `sorted`, modelled as a stable insertion sort:
`lt a b` means `a` must come strictly before `b`. -/
def stableSortBy (lt : α → α → Bool) (l : List α) : List α :=
  l.foldl (fun acc x => insertBy lt x acc) []

/-- Model of `sorted(items.values(), key=lambda item: item.published, reverse=True)`:
stable sort, published descending. -/
def sortPublishedDesc (l : List CveItem) : List CveItem :=
  stableSortBy (fun a b => strLt b.published a.published) l

/-- The inner loop of `_fetch_cves` over one response's
`vulnerabilities` list. -/
def insertResponse (tag_rules : TagRules) (d : List (String × CveItem)) (data : JValue) :
    List (String × CveItem) :=
  (vulnsOf data).foldl
    (fun d entry =>
      let cve := cveOfEntry entry
      if truthy cve then dictInsert d (normalizeItem cve tag_rules) else d)
    d

/-- The request loop of `_fetch_cves`: issues the requests in order,
accumulating the id-keyed dict; the first request error propagates. -/
def fetchPairs (respond : Network) (tag_rules : TagRules) :
    List (String × String) → List (String × CveItem) → Except ReqError (List (String × CveItem))
  | [], items => .ok items
  | p :: rest, items =>
    match (requestWithRetry (respond p.1 p.2)).1 with
    | .error e => .error e
    | .ok data => fetchPairs respond tag_rules rest (insertResponse tag_rules items data)

/-- Model of `_fetch_cves(queries, api_key, hours_back)`, abstracted over the
network.  The time-window and api-key request parameters do not affect
the modelled control flow and are absorbed into `respond`.  The
`tag_rules` argument is the result of the watchlist load performed at the
start of `_fetch_cves` (line 148); `mainRun` below records that load. -/
def fetchCves (queries : List String) (respond : Network) (tag_rules : TagRules) :
    Except ReqError (List CveItem) :=
  match fetchPairs respond tag_rules (requestPairs queries) [] with
  | .error e => .error e
  | .ok items => .ok (sortPublishedDesc (items.map Prod.snd))

/-! ## Dedup store (`_load_posted` / `_save_posted`) -/

/-- The state of the posted-store file when a run starts. -/
inductive PostedFile where
  | absent
  | unparsable
  | parsed (data : JValue)

/-- The string elements of a JSON array.  Non-string elements of a
`cve_ids` list can never compare equal to a `str` CVE id in Python, so
they are irrelevant to membership and are dropped. -/
def strElems : JValue → List String
  | .arr xs => xs.filterMap (fun v => match v with | .str s => some s | _ => none)
  | _ => []

/-- Model of `_load_posted(path)`: the empty set when the file is absent or not
valid JSON, else `set(data.get("cve_ids", []))`.  Sets of strings are
modelled as duplicate-free lists. -/
def loadPosted : PostedFile → List String
  | .absent => []
  | .unparsable => []
  | .parsed data => (strElems (jGetD data "cve_ids" (.arr []))).dedup

/-- Ascending stable sort of strings, for `sorted(set(cve_ids))`. -/
def sortStrings (l : List String) : List String :=
  stableSortBy strLt l

/-- The `cve_ids` list written by `_save_posted`: `sorted(set(cve_ids))`. -/
def savedIdList (cve_ids : List String) : List String :=
  sortStrings cve_ids.dedup

/-- The JSON content `_save_posted` writes (the `posted_at` timestamp is
opaque to every claim; `_load_posted` ignores it). -/
def storeJson (posted_at : String) (cve_ids : List String) : JValue :=
  .obj [("posted_at", .str posted_at), ("cve_ids", .arr (cve_ids.map .str))]

/-! ## Notifier -/

/-- Model of `x if x is not None else "None"` as rendered by an f-string. -/
def optStr : Option String → String
  | none => "None"
  | some s => s

/-- Model of `_format_message(item)`. -/
def formatMessage (item : CveItem) : String :=
  let cvss_part :=
    match item.cvss.base_score with
    | none => "N/A"
    | some score => toString score ++ " (" ++ optStr item.cvss.severity ++ ")"
  let tags_part := if item.tags.isEmpty then "none" else String.intercalate ", " item.tags
  let lines := ["*" ++ item.cve_id ++ "*",
    "Published: " ++ item.published,
    "CVSS: " ++ cvss_part,
    "Tags: " ++ tags_part,
    "Summary: " ++ item.summary.take 300,
    "NVD: " ++ item.nvd_url]
  let lines :=
    if item.references.isEmpty then lines
    else lines ++ ["References: " ++ String.intercalate ", " item.references]
  String.intercalate "\n" lines

/-! ## `main` -/

/-- Parsed content of the watchlist file after `_load_watchlist`'s
default-filling (`queries` and `tag_rules` default to empty). -/
structure Watchlist where
  queries : List String
  tag_rules : TagRules

/-- An observable side effect of a run. -/
inductive Event where
  | loadWatchlist
  | slackPost (text : String) (ok : Bool)
  | savePosted (ids : List String)
  | printOut (s : String)
  | printErr (s : String)
deriving Repr, DecidableEq

/-- How the process ends: `main` returns a code, or an uncaught exception
terminates the interpreter (observable process exit status 1). -/
inductive ExitKind where
  | code (n : Nat)
  | crash
deriving Repr, DecidableEq

/-- The process exit status an external scheduler observes. -/
def exitCode : ExitKind → Nat
  | .code n => n
  | .crash => 1

/-- The world a single run executes in: environment, file contents, and
the outcomes of network interactions.  `slackOk n` is whether the `n`-th
webhook POST of the run (0-based) succeeds. -/
structure World where
  webhook : Option String
  watchlist : Watchlist
  respond : Network
  postedFile : PostedFile
  slackOk : Nat → Bool

/-- Model of `if not webhook_url` — absent or empty is falsy. -/
def webhookPresent : Option String → Bool
  | none => false
  | some s => s ≠ ""

/-- Model of `posted_now.add(item.cve_id)` on the duplicate-free-list model of a
set. -/
def setAdd (l : List String) (x : String) : List String :=
  if l.contains x then l else l ++ [x]

/-- The notification loop of `main`: posts each item in order; on the
first failure prints an error and breaks; successful posts are added to
`posted_now`.  Returns the final `posted_now` and the appended events. -/
def notifyGo (slackOk : Nat → Bool) :
    List CveItem → Nat → List String → List Event → List String × List Event
  | [], _, posted_now, evs => (posted_now, evs)
  | item :: rest, idx, posted_now, evs =>
    if slackOk idx then
      notifyGo slackOk rest (idx + 1) (setAdd posted_now item.cve_id)
        (evs ++ [.slackPost (formatMessage item) true])
    else
      (posted_now, evs ++ [.slackPost (formatMessage item) false,
        .printErr ("Slack post failed for " ++ item.cve_id)])

/-- The result of a run: how the process ended and the events it
produced, in order. -/
structure MainResult where
  exit : ExitKind
  events : List Event
deriving Repr, DecidableEq

/-- Model of `main()`.  The two `Event.loadWatchlist` occurrences correspond to
the `_load_watchlist` calls at line 223 (in `main`) and line 148 (inside
`_fetch_cves`); both read the same file, whose parsed content is
`w.watchlist`.  A fetch `RuntimeError` is caught and turned into exit
code 1; a fetch `HTTPError` is not caught by `except RuntimeError` and
crashes the process. -/
def mainRun (w : World) : MainResult :=
  if ¬ webhookPresent w.webhook then
    { exit := .code 1, events := [.printErr "SLACK_WEBHOOK_URL is required."] }
  else
    let evs0 : List Event := [.loadWatchlist]
    if w.watchlist.queries.isEmpty then
      { exit := .code 1, events := evs0 ++ [.printErr "watchlist.yml has no queries."] }
    else
      let evs1 := evs0 ++ [Event.loadWatchlist]
      match fetchCves w.watchlist.queries w.respond w.watchlist.tag_rules with
      | .error (.netFail msg) =>
        { exit := .code 1, events := evs1 ++ [.printErr ("NVD request failed: " ++ msg)] }
      | .error .exhausted =>
        { exit := .code 1, events := evs1 ++ [.printErr "NVD request failed after retries."] }
      | .error (.httpStatus _) =>
        { exit := .crash, events := evs1 }
      | .ok items =>
        let posted_ids := loadPosted w.postedFile
        let to_post := items.filter (fun item => !(posted_ids.contains item.cve_id))
        if to_post.isEmpty then
          { exit := .code 0, events := evs1 ++ [.printOut "No new CVEs to post."] }
        else
          let r := notifyGo w.slackOk to_post 0 posted_ids evs1
          { exit := .code 0
            events := r.2 ++ [.savePosted (savedIdList r.1),
              .printOut ("Posted " ++ toString (r.1.length - posted_ids.length)
                ++ " CVEs.")] }

/-! ## Observations on a run's event trace -/

/-- Number of watchlist-file reads in a trace. -/
def watchlistLoadCount (evs : List Event) : Nat :=
  evs.countP (fun e => match e with | .loadWatchlist => true | _ => false)

/-- The webhook POSTs of a trace, in order, with their outcomes. -/
def slackPosts (evs : List Event) : List (String × Bool) :=
  evs.filterMap (fun e => match e with | .slackPost t ok => some (t, ok) | _ => none)

/-- The `cve_ids` written to the store file, if the run wrote it. -/
def savedStore (evs : List Event) : Option (List String) :=
  evs.findSome? (fun e => match e with | .savePosted ids => some ids | _ => none)

/-- The ids the store file holds after the run (its previous content if
the run did not write it). -/
def storeAfter (w : World) : List String :=
  match savedStore (mainRun w).events with
  | some ids => ids
  | none => loadPosted w.postedFile

/-! ## Derived views of a fetch -/

/-- The result of the `(q, s)` request. -/
def responseData (respond : Network) (q s : String) : Except ReqError JValue :=
  (requestWithRetry (respond q s)).1

/-- The normalized items contributed by one response, in entry order
(entries with a falsy `cve` member are skipped). -/
def entryItems (data : JValue) (tag_rules : TagRules) : List CveItem :=
  (vulnsOf data).filterMap (fun entry =>
    let cve := cveOfEntry entry
    if truthy cve then some (normalizeItem cve tag_rules) else none)

/-- All normalized items a successful fetch processes, in processing
order across the `(query, severity)` request pairs. -/
def processedItems (queries : List String) (respond : Network) (tag_rules : TagRules) :
    List CveItem :=
  (requestPairs queries).flatMap (fun p =>
    match responseData respond p.1 p.2 with
    | .ok data => entryItems data tag_rules
    | .error _ => [])

/-- The last item with the given id in a processing sequence. -/
def lastWith (l : List CveItem) (id : String) : Option CveItem :=
  l.reverse.find? (fun x => x.cve_id == id)

/-! ## Concrete evaluation fixtures

Small concrete worlds used to evaluate the embedding on closed inputs. -/

/-- A raw CVE record with an id and a published date. -/
def fxCve (id pub : String) : JValue :=
  .obj [("id", .str id), ("published", .str pub)]

/-- A `vulnerabilities` response body wrapping the given records. -/
def fxBody (cs : List JValue) : JValue :=
  .obj [("vulnerabilities", .arr (cs.map (fun c => .obj [("cve", c)])))]

/-- A network returning three fresh advisories on every request. -/
def fxNet3 : Network := fun _ _ _ =>
  .http 200 (fxBody [fxCve "CVE-1" "2026-03", fxCve "CVE-2" "2026-02",
    fxCve "CVE-3" "2026-01"])

/-- A network whose two severity bands overlap on id "CVE-A" (the later
CRITICAL response overwrites it) and return one record without an id. -/
def fxNetC5 : Network := fun _ sev _ =>
  if sev == "HIGH" then .http 200 (fxBody [fxCve "CVE-A" "2023", fxCve "CVE-B" "2025"])
  else .http 200 (fxBody [fxCve "CVE-A" "2024", .obj [("published", .str "")]])

/-- A network returning a distinct id-less advisory per severity band. -/
def fxNetU : Network := fun _ sev _ =>
  if sev == "HIGH" then .http 200 (fxBody [.obj [("published", .str "2024")]])
  else .http 200 (fxBody [.obj [("published", .str "2025")]])

/-- A fully healthy world: webhook set, one query, no prior store, all
webhook posts succeed. -/
def fxWorld : World :=
  { webhook := some "https://hook"
    watchlist := { queries := ["openssl"], tag_rules := [("crypto", ["openssl", "tls"])] }
    respond := fxNet3
    postedFile := .absent
    slackOk := fun _ => true }

/-- Model of `fxWorld` with every fetched id already in the store. -/
def fxWorldPosted : World :=
  { fxWorld with postedFile := .parsed (storeJson "2026-01-01"
      ["CVE-1", "CVE-2", "CVE-3"]) }

/-- The normalized item a bare `fxCve id pub` record produces. -/
def fxItem (id pub : String) : CveItem :=
  { cve_id := id
    published := pub
    cvss := { version := "N/A", base_score := none, severity := none }
    summary := ""
    tags := []
    references := []
    nvd_url := "https://nvd.nist.gov/vuln/detail/" ++ id }

/-- The items `fxWorld` fetches. -/
def fxItems : List CveItem :=
  [fxItem "CVE-1" "2026-03", fxItem "CVE-2" "2026-02", fxItem "CVE-3" "2026-01"]

/-- Model of `fxWorld` whose webhook rejects every post after the first. -/
def fxWorldFail2 : World := { fxWorld with slackOk := fun n => n == 0 }

/-- Model of `fxWorld` with one previously-posted id in the store. -/
def fxWorldPrior : World :=
  { fxWorld with postedFile := .parsed (storeJson "2026-01-01" ["CVE-0"]) }

/-- A network whose every request is rejected with a non-transient 404. -/
def fxNet404 : Network := fun _ _ _ => .http 404 .null

/-- Model of `fxWorld` behind the 404-ing network. -/
def fxWorld404 : World := { fxWorld with respond := fxNet404 }

/-- Attempt outcomes: always HTTP 200. -/
def fxOk : Nat → AttemptResult := fun _ => .http 200 .null

/-- Attempt outcomes: HTTP 200 on attempts 1..3, a network error later
(the retry loop never asks). -/
def fxOkThenErr : Nat → AttemptResult :=
  fun n => if n ≤ 3 then .http 200 .null else .netError "late"

/-- Attempt outcomes: always HTTP 503. -/
def fx503 : Nat → AttemptResult := fun _ => .http 503 .null

/-- Attempt outcomes: always HTTP 404. -/
def fx404 : Nat → AttemptResult := fun _ => .http 404 .null

/-- Attempt outcomes: 503 twice, then a network error on the final
attempt. -/
def fxNetBoom : Nat → AttemptResult :=
  fun n => if n == 3 then .netError "boom" else .http 503 .null

/-! ## Helper lemmas -/

/-- The corpus `_tag_item` matches against. -/
def tagCorpus (summary : String) (references : List String) : String :=
  strLower (String.intercalate " " (summary :: references))

/-- Whether a tag rule fires on a corpus. -/
def ruleFires (corpus : String) (rule : String × List String) : Bool :=
  rule.2.any (fun keyword => strContains corpus (strLower keyword))

theorem foldl_append_filter (p : α → Bool) (f : α → β) :
    ∀ (l : List α) (acc : List β),
      l.foldl (fun tags r => if p r then tags ++ [f r] else tags) acc
        = acc ++ (l.filter p).map f := by
  intro l
  induction l with
  | nil => intro acc; simp
  | cons x xs ih =>
    intro acc
    by_cases h : p x
    · simp [h, ih]
    · simp [h, ih]

theorem tagItem_eq (summary : String) (references : List String) (tag_rules : TagRules) :
    tagItem summary references tag_rules
      = (tag_rules.filter (ruleFires (tagCorpus summary references))).map Prod.fst := by
  have h := foldl_append_filter (ruleFires (tagCorpus summary references)) Prod.fst tag_rules []
  simp only [ruleFires, tagCorpus, List.nil_append] at h
  simpa only [tagItem] using h

theorem strContains_empty_needle (s : String) : strContains s "" = true := by
  unfold strContains
  rw [List.any_eq_true]
  refine ⟨0, ?_, ?_⟩
  · exact List.mem_range.mpr (Nat.succ_pos _)
  · simp [List.isPrefixOf]

theorem extractCvss_no_metrics (cve : JValue) (h : jGet cve "metrics" = none) :
    extractCvss cve = { version := "N/A", base_score := none, severity := none } := by
  unfold extractCvss jGetD
  rw [h]
  rfl

theorem extractCvss_groups (l31 l30 l2 : List JValue) :
    extractCvss (JValue.obj [("metrics", JValue.obj
        [("cvssMetricV31", .arr l31), ("cvssMetricV30", .arr l30), ("cvssMetricV2", .arr l2)])])
      = match l31, l30, l2 with
        | e :: _, _, _ => infoOfEntry e
        | [], e :: _, _ => infoOfEntry e
        | [], [], e :: _ => infoOfEntry e
        | [], [], [] => { version := "N/A", base_score := none, severity := none } := by
  rcases l31 with _ | ⟨e31, t31⟩ <;> rcases l30 with _ | ⟨e30, t30⟩ <;>
    rcases l2 with _ | ⟨e2, t2⟩ <;>
    simp [extractCvss, extractCvssGo, metricKeys, jGetD, jGet, lookupField,
      entriesFor, jOrElse, truthy, jArrList]

theorem infoOfEntry_version (entry : JValue) (v : String)
    (hv : jGet (jGetD (jOrElseV entry (.obj [])) "cvssData" (.obj [])) "version"
      = some (.str v)) :
    (infoOfEntry entry).version = v := by
  have h2 : jGetD (jGetD (jOrElseV entry (.obj [])) "cvssData" (.obj [])) "version" (.str "")
      = JValue.str v := by
    rw [jGetD, hv]
  show pyStr (jGetD (jGetD (jOrElseV entry (.obj [])) "cvssData" (.obj [])) "version" (.str ""))
    = v
  rw [h2]
  rfl

/-! ## Claims -/

/-- C6: `_extract_cvss` inspects the metric groups in priority order
v3.1, v3.0, v2 and takes the first non-empty group's first entry; with no
group present the version is "N/A" with score and severity absent; and
for metrics containing only a v2 entry the extracted version equals that
entry's version field, not "N/A". -/
theorem claim_C6 :
    (∀ cve : JValue, jGet cve "metrics" = none →
        extractCvss cve = { version := "N/A", base_score := none, severity := none })
    ∧ (∀ l31 l30 l2 : List JValue,
        extractCvss (JValue.obj [("metrics", JValue.obj
            [("cvssMetricV31", .arr l31), ("cvssMetricV30", .arr l30),
             ("cvssMetricV2", .arr l2)])])
          = match l31, l30, l2 with
            | e :: _, _, _ => infoOfEntry e
            | [], e :: _, _ => infoOfEntry e
            | [], [], e :: _ => infoOfEntry e
            | [], [], [] => { version := "N/A", base_score := none, severity := none })
    ∧ (∀ (entry : JValue) (rest : List JValue) (v : String),
        jGet (jGetD (jOrElseV entry (.obj [])) "cvssData" (.obj [])) "version"
            = some (.str v) →
        (extractCvss (JValue.obj [("metrics", JValue.obj
            [("cvssMetricV31", .arr []), ("cvssMetricV30", .arr []),
             ("cvssMetricV2", .arr (entry :: rest))])])).version = v) := by
  refine ⟨extractCvss_no_metrics, extractCvss_groups, ?_⟩
  intro entry rest v hv
  rw [extractCvss_groups [] [] (entry :: rest)]
  exact infoOfEntry_version entry v hv

/-- Witness for C6: a concrete record whose metrics hold only a v2
entry with version "2.0" extracts version "2.0" (and each hypothesis is
discharged on a concrete input). -/
theorem claim_C6_witness :
    jGet (JValue.obj [("id", .str "x")]) "metrics" = none
    ∧ extractCvss (JValue.obj [("id", .str "x")])
        = { version := "N/A", base_score := none, severity := none }
    ∧ jGet (jGetD (jOrElseV (JValue.obj [("cvssData",
          JValue.obj [("version", .str "2.0")])]) (.obj [])) "cvssData" (.obj [])) "version"
        = some (.str "2.0")
    ∧ (extractCvss (JValue.obj [("metrics", JValue.obj
        [("cvssMetricV31", .arr []), ("cvssMetricV30", .arr []),
         ("cvssMetricV2", .arr [JValue.obj [("cvssData",
            JValue.obj [("version", .str "2.0")])]])])])).version = "2.0" :=
  ⟨rfl, claim_C6.1 _ rfl, rfl, claim_C6.2.2 _ [] "2.0" rfl⟩

/-- C7: `_tag_item` returns exactly the tags one of whose keywords is a
case-insensitive substring of the corpus (summary and references joined
with spaces, lowercased), in `tag_rules` iteration order, each tag at
most once. -/
theorem claim_C7 (summary : String) (references : List String) (tag_rules : TagRules)
    (h : (tag_rules.map Prod.fst).Nodup) :
    tagItem summary references tag_rules
      = (tag_rules.filter (fun rule => rule.2.any (fun keyword =>
          strContains (strLower (String.intercalate " " (summary :: references)))
            (strLower keyword)))).map Prod.fst
    ∧ (tagItem summary references tag_rules).Nodup := by
  constructor
  · exact tagItem_eq summary references tag_rules
  · rw [tagItem_eq]
    exact List.Nodup.sublist
      (List.Sublist.map Prod.fst (List.filter_sublist tag_rules)) h

/-- Witness for C7 at a concrete summary, reference list and rule set:
the matching tag is returned once, the non-matching tag is not. -/
theorem claim_C7_witness :
    (([("crypto", ["openssl", "tls"]), ("web", ["http server"])].map
        (Prod.fst (α := String) (β := List String))).Nodup)
    ∧ (tagItem "A flaw in OpenSSL" ["https://example.com"]
          [("crypto", ["openssl", "tls"]), ("web", ["http server"])]
        = ([("crypto", ["openssl", "tls"]), ("web", ["http server"])].filter
            (fun rule => rule.2.any (fun keyword =>
              strContains (strLower (String.intercalate " "
                ("A flaw in OpenSSL" :: ["https://example.com"])))
                (strLower keyword)))).map Prod.fst
        ∧ (tagItem "A flaw in OpenSSL" ["https://example.com"]
            [("crypto", ["openssl", "tls"]), ("web", ["http server"])]).Nodup)
    ∧ tagItem "A flaw in OpenSSL" ["https://example.com"]
        [("crypto", ["openssl", "tls"]), ("web", ["http server"])] = ["crypto"] :=
  ⟨by decide, claim_C7 _ _ _ (by decide), by decide⟩

/-- C10: a tag whose keyword list contains the empty string is returned
for every summary and every reference list, since the empty string is a
substring of every corpus. -/
theorem claim_C10 (tag_rules : TagRules) (tag : String) (keywords : List String)
    (hmem : (tag, keywords) ∈ tag_rules) (hempty : "" ∈ keywords) :
    ∀ (summary : String) (references : List String),
      tag ∈ tagItem summary references tag_rules := by
  intro summary references
  rw [tagItem_eq]
  apply List.mem_map.mpr
  refine ⟨(tag, keywords), List.mem_filter.mpr ⟨hmem, ?_⟩, rfl⟩
  unfold ruleFires
  apply List.any_eq_true.mpr
  refine ⟨"", hempty, ?_⟩
  rw [show strLower "" = "" from rfl]
  exact strContains_empty_needle _

/-- Witness for C10: a rule with an empty-string keyword fires on a
concrete unrelated summary. -/
theorem claim_C10_witness :
    (("always", [""]) ∈ ([("always", [""])] : TagRules))
    ∧ "" ∈ [""]
    ∧ "always" ∈ tagItem "unrelated text" ["https://example.com"] [("always", [""])] :=
  ⟨by decide, by decide,
    claim_C10 [("always", [""])] "always" [""] (by decide) (by decide)
      "unrelated text" ["https://example.com"]⟩

/-! ### Lexicographic string-order facts -/

theorem charListLt_le : ∀ as bs : List Char, charListLt as bs = true → charListLe as bs = true
  | [], [] => by intro h; simp [charListLt] at h
  | [], _ :: _ => by intro _; simp [charListLe]
  | _ :: _, [] => by intro h; simp [charListLt] at h
  | a :: as, b :: bs => by
    intro h
    unfold charListLt at h
    unfold charListLe
    split at h
    · simp_all
    · split at h
      · simp_all
      · simp_all [charListLt_le as bs h]

theorem charList_total : ∀ as bs : List Char,
    charListLt as bs = false → charListLe bs as = true
  | [], [] => by intro _; simp [charListLe]
  | [], _ :: _ => by intro h; simp [charListLt] at h
  | _ :: _, [] => by intro _; simp [charListLe]
  | a :: as, b :: bs => by
    intro h
    unfold charListLt at h
    unfold charListLe
    split at h
    · simp_all
    · rename_i h1
      split at h
      · simp_all
      · rename_i h2
        have ha : ¬ b.toNat < a.toNat := by omega
        have hb : ¬ a.toNat < b.toNat := h1
        simp only [if_neg ha, if_neg hb]
        exact charList_total as bs h

theorem charListLe_trans : ∀ as bs cs : List Char,
    charListLe as bs = true → charListLe bs cs = true → charListLe as cs = true
  | [], _, _ => by intro _ _; simp [charListLe]
  | _ :: _, [], _ => by intro h _; simp [charListLe] at h
  | _ :: _, _ :: _, [] => by intro _ h; simp [charListLe] at h
  | a :: as, b :: bs, c :: cs => by
    intro h1 h2
    unfold charListLe at h1 h2 ⊢
    rcases Nat.lt_trichotomy a.toNat b.toNat with hab | hab | hab
    · rcases Nat.lt_trichotomy b.toNat c.toNat with hbc | hbc | hbc
      · have hac : a.toNat < c.toNat := hab.trans hbc
        simp [hac]
      · have hac : a.toNat < c.toNat := by omega
        simp [hac]
      · rw [if_neg (by omega), if_pos (by omega)] at h2
        exact absurd h2 (by simp)
    · rcases Nat.lt_trichotomy b.toNat c.toNat with hbc | hbc | hbc
      · have hac : a.toNat < c.toNat := by omega
        simp [hac]
      · rw [if_neg (by omega), if_neg (by omega)] at h1
        rw [if_neg (by omega), if_neg (by omega)] at h2
        rw [if_neg (by omega), if_neg (by omega)]
        exact charListLe_trans as bs cs h1 h2
      · rw [if_neg (by omega), if_pos (by omega)] at h2
        exact absurd h2 (by simp)
    · rw [if_neg (by omega), if_pos (by omega)] at h1
      exact absurd h1 (by simp)

theorem charListLe_nil : ∀ as : List Char, charListLe as [] = true → as = []
  | [] => by intro _; rfl
  | _ :: _ => by intro h; simp [charListLe] at h

theorem strLt_strLe {a b : String} (h : strLt a b = true) : strLe a b = true :=
  charListLt_le _ _ h

theorem strLt_total {a b : String} (h : strLt a b = false) : strLe b a = true :=
  charList_total _ _ h

theorem strLe_trans {a b c : String} (h1 : strLe a b = true) (h2 : strLe b c = true) :
    strLe a c = true :=
  charListLe_trans _ _ _ h1 h2

theorem strLe_empty {a : String} (h : strLe a "" = true) : a = "" := by
  have := charListLe_nil a.data h
  cases a
  simp_all

/-! ### Stable insertion sort facts -/

theorem insertBy_perm (lt : α → α → Bool) (x : α) :
    ∀ l : List α, List.Perm (insertBy lt x l) (x :: l) := by
  intro l
  induction l with
  | nil => simp [insertBy]
  | cons y ys ih =>
    unfold insertBy
    split
    · exact List.Perm.refl _
    · exact ((ih.cons y).trans (List.Perm.swap x y ys))

theorem stableSortBy_perm_aux (lt : α → α → Bool) :
    ∀ (l acc : List α), List.Perm (l.foldl (fun acc x => insertBy lt x acc) acc) (acc ++ l) := by
  intro l
  induction l with
  | nil => intro acc; simp
  | cons x xs ih =>
    intro acc
    have hstep : List.Perm (insertBy lt x acc ++ xs) (acc ++ x :: xs) :=
      ((insertBy_perm lt x acc).append_right xs).trans List.perm_middle.symm
    exact (ih (insertBy lt x acc)).trans hstep

theorem stableSortBy_perm (lt : α → α → Bool) (l : List α) :
    List.Perm (stableSortBy lt l) l := by
  simpa using stableSortBy_perm_aux lt l []

theorem mem_insertBy (lt : α → α → Bool) (x : α) (l : List α) (z : α) :
    z ∈ insertBy lt x l ↔ z = x ∨ z ∈ l :=
  ⟨fun h => by simpa using (insertBy_perm lt x l).mem_iff.mp h,
   fun h => (insertBy_perm lt x l).mem_iff.mpr (by simpa using h)⟩

theorem insertBy_pairwise (lt : α → α → Bool) (R : α → α → Prop)
    (h1 : ∀ a b, lt a b = true → R a b)
    (h2 : ∀ a b, lt a b = false → R b a)
    (htrans : ∀ a b c, R a b → R b c → R a c) (x : α) :
    ∀ l : List α, l.Pairwise R → (insertBy lt x l).Pairwise R := by
  intro l
  induction l with
  | nil => intro _; simp [insertBy]
  | cons y ys ih =>
    intro hl
    unfold insertBy
    rcases List.pairwise_cons.mp hl with ⟨hy, hys⟩
    split
    · rename_i hlt
      refine List.pairwise_cons.mpr ⟨?_, hl⟩
      intro z hz
      rcases List.mem_cons.mp hz with rfl | hz
      · exact h1 x z hlt
      · exact htrans x y z (h1 x y hlt) (hy z hz)
    · rename_i hlt
      refine List.pairwise_cons.mpr ⟨?_, ih hys⟩
      intro z hz
      rcases (mem_insertBy lt x ys z).mp hz with hzx | hz
      · rw [hzx]
        exact h2 x y (by simpa using hlt)
      · exact hy z hz

theorem stableSortBy_pairwise (lt : α → α → Bool) (R : α → α → Prop)
    (h1 : ∀ a b, lt a b = true → R a b)
    (h2 : ∀ a b, lt a b = false → R b a)
    (htrans : ∀ a b c, R a b → R b c → R a c) (l : List α) :
    (stableSortBy lt l).Pairwise R := by
  suffices h : ∀ (l acc : List α), acc.Pairwise R →
      (l.foldl (fun acc x => insertBy lt x acc) acc).Pairwise R by
    exact h l [] (by simp)
  intro l
  induction l with
  | nil => intro acc h; simpa using h
  | cons x xs ih =>
    intro acc hacc
    exact ih (insertBy lt x acc) (insertBy_pairwise lt R h1 h2 htrans x acc hacc)

theorem sortPublishedDesc_pairwise (l : List CveItem) :
    (sortPublishedDesc l).Pairwise (fun a b => strLe b.published a.published = true) := by
  apply stableSortBy_pairwise
  · intro a b h
    exact strLt_strLe h
  · intro a b h
    exact strLt_total h
  · intro a b c hab hbc
    exact strLe_trans hbc hab

/-! ### Facts about the id-keyed merge dict -/

/-- Invariant of the `items` dict: every binding's key is its value's
id. -/
def keyedBy (d : List (String × CveItem)) : Prop :=
  ∀ p ∈ d, p.1 = p.2.cve_id

theorem mem_dictInsert (d : List (String × CveItem)) (x : CveItem) (p : String × CveItem) :
    p ∈ dictInsert d x ↔ p = (x.cve_id, x) ∨ (p ∈ d ∧ p.1 ≠ x.cve_id) := by
  unfold dictInsert
  split
  · rename_i hany
    rw [List.any_eq_true] at hany
    obtain ⟨q, hq, hqk⟩ := hany
    rw [List.mem_map]
    constructor
    · rintro ⟨r, hr, hrp⟩
      by_cases hrk : r.1 == x.cve_id
      · left
        rw [if_pos hrk] at hrp
        rw [← hrp]
        simp only [beq_iff_eq] at hrk
        rw [hrk]
      · right
        rw [if_neg hrk] at hrp
        subst hrp
        exact ⟨hr, by simpa using hrk⟩
    · rintro (rfl | ⟨hp, hpk⟩)
      · exact ⟨q, hq, by simp [hqk, eq_of_beq hqk]⟩
      · exact ⟨p, hp, by simp [if_neg (by simpa using hpk)]⟩
  · rename_i hany
    have hnone : ∀ q ∈ d, ¬ q.1 = x.cve_id := by
      rw [Bool.not_eq_true, List.any_eq_false] at hany
      intro q hq heq
      exact absurd (by simp [heq]) (hany q hq)
    rw [List.mem_append]
    constructor
    · rintro (hp | hp)
      · exact Or.inr ⟨hp, hnone p hp⟩
      · left
        simpa using hp
    · rintro (rfl | ⟨hp, _⟩)
      · simp
      · exact Or.inl hp

theorem keys_dictInsert (d : List (String × CveItem)) (x : CveItem) (k : String) :
    k ∈ (dictInsert d x).map Prod.fst ↔ k = x.cve_id ∨ k ∈ d.map Prod.fst := by
  simp only [List.mem_map]
  constructor
  · rintro ⟨p, hp, rfl⟩
    rcases (mem_dictInsert d x p).mp hp with rfl | ⟨hp, _⟩
    · exact Or.inl rfl
    · exact Or.inr ⟨p, hp, rfl⟩
  · rintro (rfl | ⟨p, hp, rfl⟩)
    · exact ⟨(x.cve_id, x), (mem_dictInsert d x _).mpr (Or.inl rfl), rfl⟩
    · by_cases hpk : p.1 = x.cve_id
      · exact ⟨(x.cve_id, x), (mem_dictInsert d x _).mpr (Or.inl rfl), hpk.symm⟩
      · exact ⟨p, (mem_dictInsert d x p).mpr (Or.inr ⟨hp, hpk⟩), rfl⟩

theorem keys_nodup_dictInsert (d : List (String × CveItem)) (x : CveItem)
    (h : (d.map Prod.fst).Nodup) : ((dictInsert d x).map Prod.fst).Nodup := by
  unfold dictInsert
  split
  · rename_i hany
    have hkeys : (d.map (fun p => if p.1 == x.cve_id then (p.1, x) else p)).map Prod.fst
        = d.map Prod.fst := by
      rw [List.map_map]
      apply List.map_congr_left
      intro p _
      simp only [Function.comp_apply]
      split <;> rfl
    rw [hkeys]
    exact h
  · rename_i hany
    have hnone : ∀ q ∈ d, ¬ q.1 = x.cve_id := by
      rw [Bool.not_eq_true, List.any_eq_false] at hany
      intro q hq heq
      exact absurd (by simp [heq]) (hany q hq)
    rw [List.map_append]
    simp only [List.map_cons, List.map_nil]
    apply List.Nodup.append h (by simp)
    intro a ha hb
    simp only [List.mem_singleton] at hb
    subst hb
    obtain ⟨p, hp, hpk⟩ := List.mem_map.mp ha
    exact absurd hpk (hnone p hp)

theorem keyedBy_dictInsert (d : List (String × CveItem)) (x : CveItem)
    (h : keyedBy d) : keyedBy (dictInsert d x) := by
  intro p hp
  rcases (mem_dictInsert d x p).mp hp with rfl | ⟨hp, _⟩
  · rfl
  · exact h p hp

theorem keyedBy_foldDict (l : List CveItem) :
    ∀ d : List (String × CveItem), keyedBy d → keyedBy (l.foldl dictInsert d) := by
  induction l with
  | nil => intro d h; exact h
  | cons x xs ih =>
    intro d h
    exact ih (dictInsert d x) (keyedBy_dictInsert d x h)

theorem keys_nodup_foldDict (l : List CveItem) :
    ∀ d : List (String × CveItem), (d.map Prod.fst).Nodup →
      ((l.foldl dictInsert d).map Prod.fst).Nodup := by
  induction l with
  | nil => intro d h; exact h
  | cons x xs ih =>
    intro d h
    exact ih (dictInsert d x) (keys_nodup_dictInsert d x h)

theorem keys_mem_foldDict (l : List CveItem) :
    ∀ (d : List (String × CveItem)) (k : String),
      (k ∈ (l.foldl dictInsert d).map Prod.fst ↔
        k ∈ d.map Prod.fst ∨ ∃ x ∈ l, x.cve_id = k) := by
  induction l with
  | nil => intro d k; simp
  | cons x xs ih =>
    intro d k
    rw [List.foldl_cons, ih (dictInsert d x) k, keys_dictInsert]
    constructor
    · rintro ((rfl | hk) | ⟨y, hy, rfl⟩)
      · exact Or.inr ⟨x, by simp⟩
      · exact Or.inl hk
      · exact Or.inr ⟨y, by simp [hy]⟩
    · rintro (hk | ⟨y, hy, rfl⟩)
      · exact Or.inl (Or.inr hk)
      · rcases List.mem_cons.mp hy with rfl | hy

        · exact Or.inl (Or.inl rfl)
        · exact Or.inr ⟨y, hy, rfl⟩

theorem lastWith_cons (x : CveItem) (l : List CveItem) (k : String) :
    lastWith (x :: l) k
      = ((lastWith l k).or (if x.cve_id == k then some x else none)) := by
  unfold lastWith
  rw [List.reverse_cons, List.find?_append]
  cases hc : x.cve_id == k <;> simp [List.find?, hc]

theorem lastWith_foldDict (l : List CveItem) :
    ∀ d : List (String × CveItem), keyedBy d →
      ∀ p ∈ l.foldl dictInsert d,
        lastWith l p.1 = some p.2 ∨ (lastWith l p.1 = none ∧ p ∈ d) := by
  induction l with
  | nil =>
    intro d _ p hp
    exact Or.inr ⟨rfl, hp⟩
  | cons x xs ih =>
    intro d hd p hp
    rw [List.foldl_cons] at hp
    rcases ih (dictInsert d x) (keyedBy_dictInsert d x hd) p hp with hlast | ⟨hnone, hmem⟩
    · left
      rw [lastWith_cons, hlast]
      rfl
    · rcases (mem_dictInsert d x p).mp hmem with rfl | ⟨hmem, hne⟩
      · left
        rw [lastWith_cons, hnone]
        simp
      · right
        refine ⟨?_, hmem⟩
        rw [lastWith_cons, hnone]
        simp [Option.or]
        intro hxk
        exact absurd hxk.symm hne

/-! ### Decomposing a successful fetch -/

theorem foldl_insert_guard (p : β → Bool) (g : β → CveItem) :
    ∀ (l : List β) (d : List (String × CveItem)),
      l.foldl (fun d e => if p e then dictInsert d (g e) else d) d
        = (l.filterMap (fun e => if p e then some (g e) else none)).foldl dictInsert d := by
  intro l
  induction l with
  | nil => intro d; rfl
  | cons x xs ih =>
    intro d
    by_cases h : p x <;> simp [h, ih]

theorem insertResponse_eq (tag_rules : TagRules) (d : List (String × CveItem)) (data : JValue) :
    insertResponse tag_rules d data = (entryItems data tag_rules).foldl dictInsert d := by
  unfold insertResponse entryItems
  exact foldl_insert_guard (fun entry => truthy (cveOfEntry entry))
    (fun entry => normalizeItem (cveOfEntry entry) tag_rules) (vulnsOf data) d

theorem fetchPairs_ok (respond : Network) (tag_rules : TagRules) :
    ∀ (pairs : List (String × String)) (d items : List (String × CveItem)),
      fetchPairs respond tag_rules pairs d = .ok items →
      items = (pairs.flatMap (fun p =>
        match responseData respond p.1 p.2 with
        | .ok data => entryItems data tag_rules
        | .error _ => [])).foldl dictInsert d := by
  intro pairs
  induction pairs with
  | nil =>
    intro d items h
    simp only [fetchPairs] at h
    injection h with h
    simp [h.symm]
  | cons p rest ih =>
    intro d items h
    unfold fetchPairs at h
    split at h
    · exact absurd h (by simp)
    · rename_i data heq
      have hresp : responseData respond p.1 p.2 = .ok data := heq
      have hitems := ih (insertResponse tag_rules d data) items h
      rw [hitems, List.flatMap_cons, List.foldl_append, hresp, insertResponse_eq]

theorem fetch_ok_decomp (queries : List String) (respond : Network) (tag_rules : TagRules)
    (res : List CveItem) (h : fetchCves queries respond tag_rules = .ok res) :
    res = sortPublishedDesc
      (((processedItems queries respond tag_rules).foldl dictInsert []).map Prod.snd) := by
  unfold fetchCves at h
  split at h
  · exact absurd h (by simp)
  · rename_i items heq
    injection h with h
    rw [← h]
    rw [fetchPairs_ok respond tag_rules (requestPairs queries) [] items heq]
    rfl

theorem nodup_filter_id_len (c : String) :
    ∀ l : List CveItem, ((l.map (fun x => x.cve_id)).Nodup) →
      (l.filter (fun x => x.cve_id == c)).length ≤ 1 := by
  intro l
  induction l with
  | nil => intro _; simp
  | cons x xs ih =>
    intro h
    rw [List.map_cons, List.nodup_cons] at h
    obtain ⟨hx, hxs⟩ := h
    by_cases hc : x.cve_id == c
    · have hnil : xs.filter (fun y => y.cve_id == c) = [] := by
        rw [List.filter_eq_nil_iff]
        intro y hy hyc
        apply hx
        rw [List.mem_map]
        exact ⟨y, hy, by rw [eq_of_beq hyc, eq_of_beq hc]⟩
      simp [List.filter_cons, hc, hnil]
    · simp only [List.filter_cons, hc, if_false, Bool.false_eq_true]
      exact ih hxs

theorem fetch_ok_ids_nodup (queries : List String) (respond : Network) (tag_rules : TagRules)
    (res : List CveItem) (h : fetchCves queries respond tag_rules = .ok res) :
    (res.map (fun x => x.cve_id)).Nodup := by
  have hres := fetch_ok_decomp queries respond tag_rules res h
  have hkeyed : keyedBy ((processedItems queries respond tag_rules).foldl dictInsert []) :=
    keyedBy_foldDict _ [] (by intro p hp; cases hp)
  have hperm : List.Perm res
      (((processedItems queries respond tag_rules).foldl dictInsert []).map Prod.snd) := by
    rw [hres]
    exact stableSortBy_perm _ _
  have h1 : (((processedItems queries respond tag_rules).foldl dictInsert []).map
      Prod.snd).map (fun x => x.cve_id)
      = ((processedItems queries respond tag_rules).foldl dictInsert []).map Prod.fst := by
    rw [List.map_map]
    apply List.map_congr_left
    intro p hp
    simp only [Function.comp_apply]
    exact (hkeyed p hp).symm
  have h2 := keys_nodup_foldDict (processedItems queries respond tag_rules) [] (by simp)
  rw [← h1] at h2
  exact ((hperm.map (fun x => x.cve_id)).nodup_iff).mpr h2

theorem fetch_ok_lastWith (queries : List String) (respond : Network) (tag_rules : TagRules)
    (res : List CveItem) (h : fetchCves queries respond tag_rules = .ok res) :
    ∀ x ∈ res, lastWith (processedItems queries respond tag_rules) x.cve_id = some x := by
  have hres := fetch_ok_decomp queries respond tag_rules res h
  have hkeyed : keyedBy ((processedItems queries respond tag_rules).foldl dictInsert []) :=
    keyedBy_foldDict _ [] (by intro p hp; cases hp)
  have hperm : List.Perm res
      (((processedItems queries respond tag_rules).foldl dictInsert []).map Prod.snd) := by
    rw [hres]
    exact stableSortBy_perm _ _
  intro x hx
  obtain ⟨p, hp, hpx⟩ := List.mem_map.mp (hperm.mem_iff.mp hx)
  rcases lastWith_foldDict _ [] (by intro q hq; cases hq) p hp with hl | ⟨_, hmem⟩
  · rw [← hpx, ← hkeyed p hp]
    exact hl
  · cases hmem

/-- C5: a successful fetch merges all responses into an id-keyed mapping
(later duplicates overwrite earlier ones) and returns the values sorted
by published string, descending lexicographically, with empty published
strings last. -/
theorem claim_C5 (queries : List String) (respond : Network) (tag_rules : TagRules)
    (res : List CveItem) (h : fetchCves queries respond tag_rules = .ok res) :
    ((res.map (fun x => x.cve_id)).Nodup)
    ∧ (∀ x ∈ res, lastWith (processedItems queries respond tag_rules) x.cve_id = some x)
    ∧ (∀ x ∈ processedItems queries respond tag_rules, ∃ y ∈ res, y.cve_id = x.cve_id)
    ∧ (∀ y ∈ res, ∃ x ∈ processedItems queries respond tag_rules, x.cve_id = y.cve_id)
    ∧ res.Pairwise (fun a b => strLe b.published a.published = true)
    ∧ res.Pairwise (fun a b => a.published = "" → b.published = "") := by
  have hres := fetch_ok_decomp queries respond tag_rules res h
  have hkeyed : keyedBy ((processedItems queries respond tag_rules).foldl dictInsert []) :=
    keyedBy_foldDict _ [] (by intro p hp; cases hp)
  have hperm : List.Perm res
      (((processedItems queries respond tag_rules).foldl dictInsert []).map Prod.snd) := by
    rw [hres]
    exact stableSortBy_perm _ _
  have hsorted : res.Pairwise (fun a b => strLe b.published a.published = true) := by
    rw [hres]
    exact sortPublishedDesc_pairwise _
  refine ⟨fetch_ok_ids_nodup queries respond tag_rules res h,
    fetch_ok_lastWith queries respond tag_rules res h, ?_, ?_, hsorted, ?_⟩
  · intro x hx
    have hk : x.cve_id ∈ ((processedItems queries respond tag_rules).foldl dictInsert []).map
        Prod.fst :=
      (keys_mem_foldDict _ [] x.cve_id).mpr (Or.inr ⟨x, hx, rfl⟩)
    obtain ⟨p, hp, hpk⟩ := List.mem_map.mp hk
    refine ⟨p.2, hperm.mem_iff.mpr (List.mem_map.mpr ⟨p, hp, rfl⟩), ?_⟩
    rw [← hkeyed p hp, hpk]
  · intro y hy
    obtain ⟨p, hp, hpy⟩ := List.mem_map.mp (hperm.mem_iff.mp hy)
    rcases lastWith_foldDict _ [] (by intro q hq; cases hq) p hp with hl | ⟨_, hmem⟩
    · refine ⟨p.2, ?_, by rw [hpy]⟩
      unfold lastWith at hl
      exact List.mem_reverse.mp (List.mem_of_find?_eq_some hl)
    · cases hmem
  · exact hsorted.imp (fun hab ha => strLe_empty (by rw [ha] at hab; exact hab))

/-- C9: a raw record without an `id` field is normalized with id
"UNKNOWN"; in a successful fetch all such records collapse into one
id-keyed entry (the last processed one wins), so the result holds at most
one item with id "UNKNOWN". -/
theorem claim_C9 :
    (∀ (cve : JValue) (tag_rules : TagRules), jGet cve "id" = none →
        (normalizeItem cve tag_rules).cve_id = "UNKNOWN")
    ∧ (∀ (queries : List String) (respond : Network) (tag_rules : TagRules)
        (res : List CveItem), fetchCves queries respond tag_rules = .ok res →
          (res.filter (fun x => x.cve_id == "UNKNOWN")).length ≤ 1
          ∧ ∀ x ∈ res, x.cve_id = "UNKNOWN" →
              lastWith (processedItems queries respond tag_rules) "UNKNOWN" = some x) := by
  constructor
  · intro cve tag_rules h
    show pyOrStr (jGet cve "id") "UNKNOWN" = "UNKNOWN"
    unfold pyOrStr
    rw [h]
  · intro queries respond tag_rules res h
    refine ⟨nodup_filter_id_len "UNKNOWN" res
      (fetch_ok_ids_nodup queries respond tag_rules res h), ?_⟩
    intro x hx hid
    have := fetch_ok_lastWith queries respond tag_rules res h x hx
    rw [hid] at this
    exact this

/-! ### Retry-loop facts -/

theorem attemptNumbers_eq : attemptNumbers = [1, 2, 3] := rfl

theorem retryStep_congr (f g : Nat → AttemptResult) (st : RetrySt) (i : Nat)
    (h : f i = g i) : retryStep f st i = retryStep g st i := by
  unfold retryStep
  cases st
  · rw [h]
  · rfl

theorem retryStep_transient (f : Nat → AttemptResult) (sleeps : List Nat) (i : Nat)
    (h1 : (i == MAX_RETRIES) = false) (h2 : transientOutcome (f i) = true) :
    retryStep f (.running sleeps) i = .running (sleeps ++ [2 ^ i]) := by
  cases hfi : f i with
  | netError msg => simp [retryStep, hfi, h1]
  | http s b =>
    have hs : transientStatuses.contains s = true := by
      simpa [transientOutcome, hfi] using h2
    have hs' : s ∈ transientStatuses := by simpa using hs
    simp [retryStep, hfi, hs, hs', h1]

theorem retryStep_final_net (f : Nat → AttemptResult) (sleeps : List Nat) (msg : String)
    (h : f MAX_RETRIES = .netError msg) :
    retryStep f (.running sleeps) MAX_RETRIES = .finished (.error (.netFail msg)) sleeps := by
  simp [retryStep, h]

theorem transient_raise (s : Nat) (hs : transientStatuses.contains s = true) :
    raiseForStatus s = some (.httpStatus s) := by
  have : s = 429 ∨ s = 500 ∨ s = 502 ∨ s = 503 ∨ s = 504 := by
    simpa [transientStatuses] using hs
  rcases this with rfl | rfl | rfl | rfl | rfl <;> rfl

theorem retryStep_final_transient (f : Nat → AttemptResult) (sleeps : List Nat)
    (s : Nat) (b : JValue) (h : f MAX_RETRIES = .http s b)
    (hs : transientStatuses.contains s = true) :
    retryStep f (.running sleeps) MAX_RETRIES
      = .finished (.error (.httpStatus s)) sleeps := by
  have hs' : s ∈ transientStatuses := by simpa using hs
  simp [retryStep, h, hs, hs', transient_raise s hs]

theorem retryStep_nontransient_raise (f : Nat → AttemptResult) (sleeps : List Nat)
    (i s : Nat) (b : JValue) (hf : f i = .http s b)
    (hs : transientStatuses.contains s = false)
    (he : raiseForStatus s = some (.httpStatus s)) :
    retryStep f (.running sleeps) i = .finished (.error (.httpStatus s)) sleeps := by
  have hs' : s ∉ transientStatuses := by simpa using hs
  simp [retryStep, hf, hs, hs', he]

/-! ### Notification-loop facts -/

theorem notifyGo_all_ok (slackOk : Nat → Bool) :
    ∀ (l : List CveItem) (idx : Nat) (posted : List String) (evs : List Event),
      (∀ j, j < l.length → slackOk (idx + j) = true) →
      notifyGo slackOk l idx posted evs
        = (l.foldl (fun p item => setAdd p item.cve_id) posted,
           evs ++ l.map (fun it => Event.slackPost (formatMessage it) true)) := by
  intro l
  induction l with
  | nil => intro idx posted evs _; simp [notifyGo]
  | cons x xs ih =>
    intro idx posted evs hok
    have h0 : slackOk idx = true := by simpa using hok 0 (by simp)
    rw [notifyGo, if_pos h0, ih (idx + 1) _ _ (fun j hj => by
      have := hok (j + 1) (by simpa using Nat.succ_lt_succ hj)
      simpa [Nat.add_assoc, Nat.add_comm 1 j] using this)]
    simp

theorem notifyGo_fail_at (slackOk : Nat → Bool) :
    ∀ (l : List CveItem) (k : Nat) (hk : k < l.length) (idx : Nat) (posted : List String)
      (evs : List Event),
      (∀ j, j < k → slackOk (idx + j) = true) → slackOk (idx + k) = false →
      notifyGo slackOk l idx posted evs
        = ((l.take k).foldl (fun p item => setAdd p item.cve_id) posted,
           evs ++ (l.take k).map (fun it => Event.slackPost (formatMessage it) true)
             ++ [Event.slackPost (formatMessage (l.get ⟨k, hk⟩)) false,
                 Event.printErr ("Slack post failed for " ++ (l.get ⟨k, hk⟩).cve_id)]) := by
  intro l
  induction l with
  | nil => intro k hk; exact absurd hk (by simp)
  | cons x xs ih =>
    intro k hk idx posted evs hok hfail
    cases k with
    | zero =>
      have h0 : slackOk idx = false := by simpa using hfail
      rw [notifyGo, if_neg (by simp [h0])]
      simp
    | succ k' =>
      have h0 : slackOk idx = true := by simpa using hok 0 (Nat.succ_pos _)
      rw [notifyGo, if_pos h0, ih k' (by simpa using Nat.succ_lt_succ_iff.mp hk) (idx + 1) _ _
        (fun j hj => by
          have := hok (j + 1) (Nat.succ_lt_succ hj)
          simpa [Nat.add_assoc, Nat.add_comm 1 j] using this)
        (by
          have : idx + 1 + k' = idx + (k' + 1) := by omega
          rw [this]
          exact hfail)]
      simp

theorem mem_setAdd (p : List String) (x y : String) :
    y ∈ setAdd p x ↔ y ∈ p ∨ y = x := by
  unfold setAdd
  split
  · rename_i hc
    constructor
    · exact Or.inl
    · rintro (h | rfl)
      · exact h
      · simpa using hc
  · simp

theorem mem_foldl_setAdd :
    ∀ (l : List CveItem) (p : List String) (y : String),
      y ∈ l.foldl (fun p item => setAdd p item.cve_id) p
        ↔ y ∈ p ∨ y ∈ l.map (fun x => x.cve_id) := by
  intro l
  induction l with
  | nil => intro p y; simp
  | cons x xs ih =>
    intro p y
    rw [List.foldl_cons, ih (setAdd p x.cve_id) y, mem_setAdd]
    simp
    tauto

theorem notifyGo_posted_super (slackOk : Nat → Bool) :
    ∀ (l : List CveItem) (idx : Nat) (posted : List String) (evs : List Event) (y : String),
      y ∈ posted → y ∈ (notifyGo slackOk l idx posted evs).1 := by
  intro l
  induction l with
  | nil => intro idx posted evs y hy; exact hy
  | cons x xs ih =>
    intro idx posted evs y hy
    rw [notifyGo]
    split
    · exact ih _ _ _ y ((mem_setAdd posted x.cve_id y).mpr (Or.inl hy))
    · exact hy

theorem notifyGo_events_tail (slackOk : Nat → Bool) :
    ∀ (l : List CveItem) (idx : Nat) (posted : List String) (evs : List Event),
      ∃ tail : List Event, (notifyGo slackOk l idx posted evs).2 = evs ++ tail
        ∧ ∀ e ∈ tail, (∃ t ok, e = .slackPost t ok) ∨ (∃ s, e = .printErr s) := by
  intro l
  induction l with
  | nil => intro idx posted evs; exact ⟨[], by simp [notifyGo]⟩
  | cons x xs ih =>
    intro idx posted evs
    rw [notifyGo]
    split
    · obtain ⟨tail, htail, hshape⟩ :=
        ih (idx + 1) (setAdd posted x.cve_id) (evs ++ [.slackPost (formatMessage x) true])
      refine ⟨[Event.slackPost (formatMessage x) true] ++ tail, ?_, ?_⟩
      · rw [htail, List.append_assoc]
      · intro e he
        rcases List.mem_append.mp he with he | he
        · simp only [List.mem_singleton] at he
          exact Or.inl ⟨_, _, he⟩
        · exact hshape e he
    · refine ⟨[Event.slackPost (formatMessage x) false,
        Event.printErr ("Slack post failed for " ++ x.cve_id)], by simp, ?_⟩
      intro e he
      rcases List.mem_cons.mp he with rfl | he
      · exact Or.inl ⟨_, _, rfl⟩
      · simp only [List.mem_singleton] at he
        exact Or.inr ⟨_, he⟩

theorem mem_savedIdList (ids : List String) (y : String) :
    y ∈ savedIdList ids ↔ y ∈ ids := by
  unfold savedIdList sortStrings
  rw [(stableSortBy_perm strLt ids.dedup).mem_iff]
  exact List.mem_dedup

/-! ### Run-path facts -/

theorem mainRun_no_webhook (w : World) (hw : webhookPresent w.webhook = false) :
    mainRun w
      = { exit := .code 1, events := [.printErr "SLACK_WEBHOOK_URL is required."] } := by
  simp [mainRun, hw]

theorem mainRun_no_queries (w : World) (hw : webhookPresent w.webhook = true)
    (hq : w.watchlist.queries.isEmpty = true) :
    mainRun w
      = { exit := .code 1
          events := [.loadWatchlist, .printErr "watchlist.yml has no queries."] } := by
  simp [mainRun, hw, hq]

theorem mainRun_fetch_error (w : World) (e : ReqError)
    (hw : webhookPresent w.webhook = true) (hq : w.watchlist.queries.isEmpty = false)
    (hf : fetchCves w.watchlist.queries w.respond w.watchlist.tag_rules = .error e) :
    mainRun w = match e with
      | .netFail msg =>
        { exit := .code 1
          events := [.loadWatchlist, .loadWatchlist,
            .printErr ("NVD request failed: " ++ msg)] }
      | .exhausted =>
        { exit := .code 1
          events := [.loadWatchlist, .loadWatchlist,
            .printErr "NVD request failed after retries."] }
      | .httpStatus _ => { exit := .crash, events := [.loadWatchlist, .loadWatchlist] } := by
  cases e <;> simp [mainRun, hw, hq, hf]

theorem mainRun_no_new (w : World) (items : List CveItem)
    (hw : webhookPresent w.webhook = true) (hq : w.watchlist.queries.isEmpty = false)
    (hf : fetchCves w.watchlist.queries w.respond w.watchlist.tag_rules = .ok items)
    (hempty : (items.filter
      (fun item => !((loadPosted w.postedFile).contains item.cve_id))).isEmpty = true) :
    mainRun w
      = { exit := .code 0
          events := [.loadWatchlist, .loadWatchlist,
            .printOut "No new CVEs to post."] } := by
  unfold mainRun
  simp only [hw, hq, hf]
  simp only [hempty]
  simp

theorem mainRun_notify (w : World) (items : List CveItem)
    (hw : webhookPresent w.webhook = true) (hq : w.watchlist.queries.isEmpty = false)
    (hf : fetchCves w.watchlist.queries w.respond w.watchlist.tag_rules = .ok items)
    (hne : (items.filter
      (fun item => !((loadPosted w.postedFile).contains item.cve_id))).isEmpty = false) :
    mainRun w =
      { exit := .code 0
        events := (notifyGo w.slackOk
            (items.filter (fun item => !((loadPosted w.postedFile).contains item.cve_id)))
            0 (loadPosted w.postedFile) [.loadWatchlist, .loadWatchlist]).2
          ++ [.savePosted (savedIdList (notifyGo w.slackOk
              (items.filter (fun item => !((loadPosted w.postedFile).contains item.cve_id)))
              0 (loadPosted w.postedFile) [.loadWatchlist, .loadWatchlist]).1),
            .printOut ("Posted " ++ toString ((notifyGo w.slackOk
              (items.filter (fun item => !((loadPosted w.postedFile).contains item.cve_id)))
              0 (loadPosted w.postedFile) [.loadWatchlist, .loadWatchlist]).1.length
                - (loadPosted w.postedFile).length) ++ " CVEs.")] } := by
  unfold mainRun
  simp only [hw, hq, hf]
  simp only [hne]
  simp

/-- C1: at most 3 attempts are made per request (the result depends only
on attempts 1..3); a network failure or transient status (429, 500, 502,
503, 504) before the final attempt is retried after a backoff of
`2 ^ attempt` seconds; on the final attempt it fails with the error
wrapping the underlying cause; a non-transient error status fails
immediately; and a fetch error is fatal for the run: observed exit
status 1, no webhook posts, and no store write. -/
theorem claim_C1 :
    (∀ f g : Nat → AttemptResult,
        (∀ i, 1 ≤ i → i ≤ MAX_RETRIES → f i = g i) →
        requestWithRetry f = requestWithRetry g)
    ∧ (∀ (f : Nat → AttemptResult) (sleeps : List Nat) (i : Nat),
        (i == MAX_RETRIES) = false → transientOutcome (f i) = true →
        retryStep f (.running sleeps) i = .running (sleeps ++ [2 ^ i]))
    ∧ (∀ (f : Nat → AttemptResult) (msg : String),
        transientOutcome (f 1) = true → transientOutcome (f 2) = true →
        f 3 = .netError msg →
        requestWithRetry f = (.error (.netFail msg), [2, 4]))
    ∧ (∀ (f : Nat → AttemptResult) (s : Nat) (b : JValue),
        transientOutcome (f 1) = true → transientOutcome (f 2) = true →
        f 3 = .http s b → transientStatuses.contains s = true →
        requestWithRetry f = (.error (.httpStatus s), [2, 4]))
    ∧ (∀ (f : Nat → AttemptResult) (s : Nat) (b : JValue),
        f 1 = .http s b → transientStatuses.contains s = false →
        raiseForStatus s = some (.httpStatus s) →
        requestWithRetry f = (.error (.httpStatus s), []))
    ∧ (∀ (w : World) (e : ReqError),
        webhookPresent w.webhook = true → w.watchlist.queries.isEmpty = false →
        fetchCves w.watchlist.queries w.respond w.watchlist.tag_rules = .error e →
        exitCode (mainRun w).exit = 1 ∧ slackPosts (mainRun w).events = []
          ∧ savedStore (mainRun w).events = none) := by
  refine ⟨?_, ?_, ?_, ?_, ?_, ?_⟩
  · intro f g h
    unfold requestWithRetry
    rw [attemptNumbers_eq]
    simp only [List.foldl_cons, List.foldl_nil]
    rw [retryStep_congr f g (.running []) 1 (h 1 (by decide) (by decide))]
    rw [retryStep_congr f g _ 2 (h 2 (by decide) (by decide))]
    rw [retryStep_congr f g _ 3 (h 3 (by decide) (by decide))]
  · exact retryStep_transient
  · intro f msg h1 h2 h3
    unfold requestWithRetry
    rw [attemptNumbers_eq]
    simp only [List.foldl_cons, List.foldl_nil]
    rw [retryStep_transient f [] 1 (by decide) h1]
    rw [retryStep_transient f ([] ++ [2 ^ 1]) 2 (by decide) h2]
    rw [show (3 : Nat) = MAX_RETRIES from rfl]
    rw [retryStep_final_net f (([] ++ [2 ^ 1]) ++ [2 ^ 2]) msg h3]
    simp
  · intro f s b h1 h2 h3 hs
    unfold requestWithRetry
    rw [attemptNumbers_eq]
    simp only [List.foldl_cons, List.foldl_nil]
    rw [retryStep_transient f [] 1 (by decide) h1]
    rw [retryStep_transient f ([] ++ [2 ^ 1]) 2 (by decide) h2]
    rw [show (3 : Nat) = MAX_RETRIES from rfl]
    rw [retryStep_final_transient f (([] ++ [2 ^ 1]) ++ [2 ^ 2]) s b h3 hs]
    simp
  · intro f s b h1 hs he
    unfold requestWithRetry
    rw [attemptNumbers_eq]
    simp only [List.foldl_cons, List.foldl_nil]
    rw [retryStep_nontransient_raise f [] 1 s b h1 hs he]
    simp [retryStep]
  · intro w e hw hq hf
    rw [mainRun_fetch_error w e hw hq hf]
    cases e <;> simp [slackPosts, savedStore, exitCode]

theorem savedStore_notifyGo_none (slackOk : Nat → Bool) (l : List CveItem) (idx : Nat)
    (posted : List String) :
    savedStore (notifyGo slackOk l idx posted [.loadWatchlist, .loadWatchlist]).2 = none := by
  obtain ⟨tail, htail, hshape⟩ :=
    notifyGo_events_tail slackOk l idx posted [.loadWatchlist, .loadWatchlist]
  unfold savedStore
  rw [htail, List.findSome?_append]
  have h2 : tail.findSome?
      (fun e => match e with | .savePosted ids => some ids | _ => none) = none := by
    rw [List.findSome?_eq_none_iff]
    intro e he
    rcases hshape e he with ⟨t, ok, rfl⟩ | ⟨m, rfl⟩ <;> rfl
  rw [h2]
  rfl

theorem savedStore_save_tail (evs : List Event) (S : List String) (m : String)
    (hnone : savedStore evs = none) :
    savedStore (evs ++ [.savePosted S, .printOut m]) = some S := by
  unfold savedStore at hnone ⊢
  rw [List.findSome?_append, hnone]
  rfl

theorem storeAfter_notify (w : World) (items : List CveItem)
    (hw : webhookPresent w.webhook = true) (hq : w.watchlist.queries.isEmpty = false)
    (hf : fetchCves w.watchlist.queries w.respond w.watchlist.tag_rules = .ok items)
    (hne : (items.filter
      (fun item => !((loadPosted w.postedFile).contains item.cve_id))).isEmpty = false) :
    storeAfter w = savedIdList (notifyGo w.slackOk
      (items.filter (fun item => !((loadPosted w.postedFile).contains item.cve_id)))
      0 (loadPosted w.postedFile) [.loadWatchlist, .loadWatchlist]).1 := by
  unfold storeAfter
  rw [mainRun_notify w items hw hq hf hne]
  rw [savedStore_save_tail _ _ _ (savedStore_notifyGo_none _ _ _ _)]

/-- C3: the set of ids in the dedup store after a run always contains
every id it held before the run; the store never shrinks. -/
theorem claim_C3 (w : World) (y : String) (hy : y ∈ loadPosted w.postedFile) :
    y ∈ storeAfter w := by
  unfold storeAfter
  cases hw : webhookPresent w.webhook with
  | false =>
    rw [mainRun_no_webhook w hw]
    exact hy
  | true =>
    cases hq : w.watchlist.queries.isEmpty with
    | true =>
      rw [mainRun_no_queries w hw hq]
      exact hy
    | false =>
      cases hfetch : fetchCves w.watchlist.queries w.respond w.watchlist.tag_rules with
      | error e =>
        rw [mainRun_fetch_error w e hw hq hfetch]
        cases e <;> exact hy
      | ok items =>
        cases hemp : (items.filter
            (fun item => !((loadPosted w.postedFile).contains item.cve_id))).isEmpty with
        | true =>
          rw [mainRun_no_new w items hw hq hfetch hemp]
          exact hy
        | false =>
          have hsa := storeAfter_notify w items hw hq hfetch hemp
          unfold storeAfter at hsa
          rw [hsa]
          rw [mem_savedIdList]
          exact notifyGo_posted_super w.slackOk _ 0 _ _ y hy

theorem nodup_get_not_mem_take (m : List β) (hm : m.Nodup) (k j : Nat) (hj : j < m.length)
    (hkj : k ≤ j) : m.get ⟨j, hj⟩ ∉ m.take k := by
  have hsplit := List.take_append_drop k m
  rw [← hsplit, List.nodup_append] at hm
  obtain ⟨_, _, hdisj⟩ := hm
  intro hmem
  have hjk : k + (j - k) = j := by omega
  have hlen : j - k < (m.drop k).length := by
    rw [List.length_drop]
    omega
  have hdropmem : m.get ⟨j, hj⟩ ∈ m.drop k := by
    have : (m.drop k).get ⟨j - k, hlen⟩ = m.get ⟨j, hj⟩ := by
      simp only [List.get_eq_getElem, List.getElem_drop]
      congr 1
    rw [← this]
    exact List.get_mem _ _ _
  exact hdisj hmem hdropmem

/-- C2: when the `k`-th webhook delivery of the run fails (0-based, all
earlier ones succeeding), the items before index `k` are delivered in
order and recorded in the persisted store, the failing item and all later
items are neither attempted (beyond the failing POST) nor recorded, the
process does not crash, the store is persisted, and the run exits 0. -/
theorem claim_C2 (w : World) (items : List CveItem) (k : Nat)
    (hw : webhookPresent w.webhook = true) (hq : w.watchlist.queries.isEmpty = false)
    (hf : fetchCves w.watchlist.queries w.respond w.watchlist.tag_rules = .ok items)
    (hk : k < (items.filter
      (fun item => !((loadPosted w.postedFile).contains item.cve_id))).length)
    (hok : ∀ j, j < k → w.slackOk j = true) (hfail : w.slackOk k = false) :
    (mainRun w).exit = .code 0
    ∧ slackPosts (mainRun w).events
        = ((items.filter
            (fun item => !((loadPosted w.postedFile).contains item.cve_id))).take k).map
              (fun it => (formatMessage it, true))
          ++ [(formatMessage ((items.filter
              (fun item => !((loadPosted w.postedFile).contains item.cve_id))).get ⟨k, hk⟩),
            false)]
    ∧ ∃ S, savedStore (mainRun w).events = some S
        ∧ (∀ y, y ∈ S ↔ y ∈ loadPosted w.postedFile
            ∨ y ∈ ((items.filter
                (fun item => !((loadPosted w.postedFile).contains item.cve_id))).take k).map
                  (fun x => x.cve_id))
        ∧ (∀ j (hj : j < (items.filter
              (fun item => !((loadPosted w.postedFile).contains item.cve_id))).length),
            k ≤ j →
            ((items.filter
              (fun item => !((loadPosted w.postedFile).contains item.cve_id))).get
                ⟨j, hj⟩).cve_id ∉ S) := by
  have hne : (items.filter
      (fun item => !((loadPosted w.postedFile).contains item.cve_id))).isEmpty = false := by
    have hpos : 0 < (items.filter
        (fun item => !((loadPosted w.postedFile).contains item.cve_id))).length :=
      Nat.lt_of_le_of_lt (Nat.zero_le k) hk
    simpa using List.length_pos.mp hpos
  have hrun := mainRun_notify w items hw hq hf hne
  have hngo := notifyGo_fail_at w.slackOk
    (items.filter (fun item => !((loadPosted w.postedFile).contains item.cve_id))) k hk
    0 (loadPosted w.postedFile) [.loadWatchlist, .loadWatchlist]
    (fun j hj => by simpa using hok j hj) (by simpa using hfail)
  have hidnodup : ((items.filter
      (fun item => !((loadPosted w.postedFile).contains item.cve_id))).map
        (fun x => x.cve_id)).Nodup := by
    refine List.Nodup.sublist ?_ (fetch_ok_ids_nodup _ _ _ _ hf)
    exact List.Sublist.map _ (List.filter_sublist items)
  refine ⟨?_, ?_, ?_⟩
  · rw [hrun]
  · rw [hrun]
    simp only [hngo]
    simp [slackPosts, List.filterMap_append, List.filterMap_map, Function.comp]
    rw [← List.map_take, List.filterMap_map, ← List.map_take]
    exact congrFun (List.filterMap_eq_map (fun it => (formatMessage it, true))) _
  · refine ⟨savedIdList (((items.filter
      (fun item => !((loadPosted w.postedFile).contains item.cve_id))).take k).foldl
        (fun p item => setAdd p item.cve_id) (loadPosted w.postedFile)), ?_, ?_, ?_⟩
    · rw [hrun]
      rw [savedStore_save_tail _ _ _ (savedStore_notifyGo_none _ _ _ _)]
      rw [show (notifyGo w.slackOk
          (items.filter (fun item => !((loadPosted w.postedFile).contains item.cve_id)))
          0 (loadPosted w.postedFile) [.loadWatchlist, .loadWatchlist]).1
        = ((items.filter
            (fun item => !((loadPosted w.postedFile).contains item.cve_id))).take k).foldl
              (fun p item => setAdd p item.cve_id) (loadPosted w.postedFile) from by
          rw [hngo]]
    · intro y
      rw [mem_savedIdList, mem_foldl_setAdd]
    · intro j hj hkj hmem
      rw [mem_savedIdList, mem_foldl_setAdd] at hmem
      rcases hmem with hmem | hmem
      · have hjmem : (items.filter
            (fun item => !((loadPosted w.postedFile).contains item.cve_id))).get ⟨j, hj⟩
            ∈ items.filter (fun item => !((loadPosted w.postedFile).contains item.cve_id)) :=
          List.get_mem _ _ _
        have hpred := (List.mem_filter.mp hjmem).2
        have hcont : ((loadPosted w.postedFile).contains
            ((items.filter
              (fun item => !((loadPosted w.postedFile).contains item.cve_id))).get
                ⟨j, hj⟩).cve_id) = false := by
          simpa using hpred
        exact absurd hmem (by simpa using hcont)
      · obtain ⟨x, hxtake, hxid⟩ := List.mem_map.mp hmem
        have hxmem : x ∈ items.filter
            (fun item => !((loadPosted w.postedFile).contains item.cve_id)) :=
          List.mem_of_mem_take hxtake
        have hxeq : x = (items.filter
            (fun item => !((loadPosted w.postedFile).contains item.cve_id))).get ⟨j, hj⟩ :=
          List.inj_on_of_nodup_map hidnodup hxmem (List.get_mem _ _ _) hxid
        rw [hxeq] at hxtake
        exact nodup_get_not_mem_take _ (List.Nodup.of_map _ hidnodup) k j hj hkj hxtake

theorem strElems_storeJson (t : String) (ids : List String) :
    strElems (jGetD (storeJson t ids) "cve_ids" (.arr [])) = ids := by
  have harr : strElems (.arr (ids.map .str)) = ids := by
    show (ids.map JValue.str).filterMap
      (fun v => match v with | .str s => some s | _ => none) = ids
    rw [List.filterMap_map]
    exact (congrFun (List.filterMap_eq_map (fun s : String => s)) ids).trans (List.map_id ids)
  simpa [storeJson, jGetD, jGet, lookupField] using harr

theorem loadPosted_storeJson (t : String) (ids : List String) :
    loadPosted (.parsed (storeJson t ids)) = ids.dedup := by
  show (strElems (jGetD (storeJson t ids) "cve_ids" (.arr []))).dedup = ids.dedup
  rw [strElems_storeJson]

theorem storeAfter_of_no_save (w : World) (h : savedStore (mainRun w).events = none) :
    storeAfter w = loadPosted w.postedFile := by
  unfold storeAfter
  rw [h]

theorem storeAfter_all_posted (w : World) (items : List CveItem)
    (hw : webhookPresent w.webhook = true) (hq : w.watchlist.queries.isEmpty = false)
    (hf : fetchCves w.watchlist.queries w.respond w.watchlist.tag_rules = .ok items)
    (hall : ∀ n, w.slackOk n = true) :
    ∀ item ∈ items, item.cve_id ∈ storeAfter w := by
  intro item hitem
  cases hemp : (items.filter
      (fun item => !((loadPosted w.postedFile).contains item.cve_id))).isEmpty with
  | true =>
    have hnil : items.filter
        (fun item => !((loadPosted w.postedFile).contains item.cve_id)) = [] := by
      simpa using hemp
    have hpred := List.filter_eq_nil_iff.mp hnil item hitem
    have hmem : item.cve_id ∈ loadPosted w.postedFile := by simpa using hpred
    unfold storeAfter
    rw [mainRun_no_new w items hw hq hf hemp]
    exact hmem
  | false =>
    rw [storeAfter_notify w items hw hq hf hemp]
    rw [notifyGo_all_ok w.slackOk _ 0 _ _ (fun j _ => hall (0 + j))]
    rw [mem_savedIdList, mem_foldl_setAdd]
    by_cases hmem : item.cve_id ∈ loadPosted w.postedFile
    · exact Or.inl hmem
    · refine Or.inr ?_
      rw [List.mem_map]
      refine ⟨item, List.mem_filter.mpr ⟨hitem, ?_⟩, rfl⟩
      simpa using hmem

/-- C4: when the subsequence of fetched items whose id is not already
posted is empty, the run prints the no-op message and exits 0 without
touching the store; consequently a second run over the same upstream
data, with the store produced by a fully successful first run, posts
nothing and leaves the store unchanged. -/
theorem claim_C4 (w : World) (items : List CveItem)
    (hw : webhookPresent w.webhook = true) (hq : w.watchlist.queries.isEmpty = false)
    (hf : fetchCves w.watchlist.queries w.respond w.watchlist.tag_rules = .ok items) :
    ((items.filter
        (fun item => !((loadPosted w.postedFile).contains item.cve_id))).isEmpty = true →
      mainRun w
        = { exit := .code 0
            events := [.loadWatchlist, .loadWatchlist,
              .printOut "No new CVEs to post."] }
      ∧ slackPosts (mainRun w).events = []
      ∧ savedStore (mainRun w).events = none
      ∧ storeAfter w = loadPosted w.postedFile)
    ∧ ((∀ n, w.slackOk n = true) → ∀ t : String,
      (mainRun { w with postedFile := .parsed (storeJson t (storeAfter w)) }).exit = .code 0
      ∧ slackPosts
          (mainRun { w with postedFile := .parsed (storeJson t (storeAfter w)) }).events = []
      ∧ savedStore
          (mainRun { w with postedFile := .parsed (storeJson t (storeAfter w)) }).events
            = none
      ∧ storeAfter { w with postedFile := .parsed (storeJson t (storeAfter w)) }
          = loadPosted (.parsed (storeJson t (storeAfter w)))
      ∧ Event.printOut "No new CVEs to post."
          ∈ (mainRun { w with postedFile := .parsed (storeJson t (storeAfter w)) }).events) := by
  constructor
  · intro hemp
    have hrun := mainRun_no_new w items hw hq hf hemp
    refine ⟨hrun, ?_, ?_, ?_⟩
    · rw [hrun]
      rfl
    · rw [hrun]
      rfl
    · unfold storeAfter
      rw [hrun]
      rfl
  · intro hall t
    have hS := storeAfter_all_posted w items hw hq hf hall
    have hemp2 : (items.filter (fun item =>
        !((loadPosted (PostedFile.parsed (storeJson t (storeAfter w)))).contains
          item.cve_id))).isEmpty = true := by
      have hnil : items.filter (fun item =>
          !((loadPosted (PostedFile.parsed (storeJson t (storeAfter w)))).contains
            item.cve_id)) = [] := by
        rw [List.filter_eq_nil_iff]
        intro a ha
        have : a.cve_id ∈ loadPosted (PostedFile.parsed (storeJson t (storeAfter w))) := by
          rw [loadPosted_storeJson]
          exact List.mem_dedup.mpr (hS a ha)
        simp [this]
      rw [hnil]
      rfl
    have hrun := mainRun_no_new { w with postedFile := .parsed (storeJson t (storeAfter w)) }
      items hw hq hf hemp2
    refine ⟨?_, ?_, ?_, ?_, ?_⟩
    · rw [hrun]
    · rw [hrun]
      rfl
    · rw [hrun]
      rfl
    · rw [storeAfter_of_no_save _ (by rw [hrun]; rfl)]
    · rw [hrun]
      simp

/-- Counterexample to C8 as stated: in a healthy run the watchlist file
is read twice — once in `main` (line 223) and once inside `_fetch_cves`
(line 148) — not exactly once. -/
theorem claim_C8_counterexample :
    watchlistLoadCount (mainRun fxWorld).events = 2
    ∧ watchlistLoadCount (mainRun fxWorld).events ≠ 1 := by
  constructor
  · decide
  · decide

/-- C8 (amended): every run with a webhook and a non-empty query list
loads the watchlist file exactly twice — once in LOAD_CONFIG and once
more at the start of FETCH (for `tag_rules`); it is not read again after
that, and both reads return the same parsed structure, which all later
steps use. -/
theorem claim_C8 (w : World) (hw : webhookPresent w.webhook = true)
    (hq : w.watchlist.queries.isEmpty = false) :
    watchlistLoadCount (mainRun w).events = 2 := by
  cases hfetch : fetchCves w.watchlist.queries w.respond w.watchlist.tag_rules with
  | error e =>
    rw [mainRun_fetch_error w e hw hq hfetch]
    cases e <;> rfl
  | ok items =>
    cases hemp : (items.filter
        (fun item => !((loadPosted w.postedFile).contains item.cve_id))).isEmpty with
    | true =>
      rw [mainRun_no_new w items hw hq hfetch hemp]
      rfl
    | false =>
      rw [mainRun_notify w items hw hq hfetch hemp]
      obtain ⟨tail, htail, hshape⟩ := notifyGo_events_tail w.slackOk
        (items.filter (fun item => !((loadPosted w.postedFile).contains item.cve_id)))
        0 (loadPosted w.postedFile) [.loadWatchlist, .loadWatchlist]
      unfold watchlistLoadCount
      rw [List.countP_append, htail, List.countP_append]
      have htail0 : tail.countP
          (fun e => match e with | Event.loadWatchlist => true | _ => false) = 0 := by
        rw [List.countP_eq_zero]
        intro e he
        rcases hshape e he with ⟨t, ok, rfl⟩ | ⟨m, rfl⟩ <;> simp
      rw [htail0]
      rfl

/-- Witness for C1: the congruence, backoff, final-failure, immediate
HTTP-error and fatal-run parts of the retry claim, at concrete attempt
sequences and a concrete world. -/
theorem claim_C1_witness :
    ((∀ i, 1 ≤ i → i ≤ MAX_RETRIES → fxOkThenErr i = fxOk i)
      ∧ requestWithRetry fxOkThenErr = requestWithRetry fxOk)
    ∧ ((1 == MAX_RETRIES) = false ∧ transientOutcome (fx503 1) = true
      ∧ retryStep fx503 (.running []) 1 = .running ([] ++ [2 ^ 1]))
    ∧ (fxNetBoom 3 = .netError "boom"
      ∧ requestWithRetry fxNetBoom = (.error (.netFail "boom"), [2, 4]))
    ∧ requestWithRetry fx503 = (.error (.httpStatus 503), [2, 4])
    ∧ requestWithRetry fx404 = (.error (.httpStatus 404), [])
    ∧ (fetchCves fxWorld404.watchlist.queries fxWorld404.respond
          fxWorld404.watchlist.tag_rules = .error (.httpStatus 404)
      ∧ exitCode (mainRun fxWorld404).exit = 1
      ∧ slackPosts (mainRun fxWorld404).events = []
      ∧ savedStore (mainRun fxWorld404).events = none) := by
  have hagree : ∀ i, 1 ≤ i → i ≤ MAX_RETRIES → fxOkThenErr i = fxOk i := by
    intro i _ h3
    simp [fxOkThenErr, fxOk, show i ≤ 3 from h3]
  refine ⟨⟨hagree, claim_C1.1 fxOkThenErr fxOk hagree⟩,
    ⟨by decide, rfl, claim_C1.2.1 fx503 [] 1 (by decide) rfl⟩,
    ⟨rfl, claim_C1.2.2.1 fxNetBoom "boom" rfl rfl rfl⟩,
    claim_C1.2.2.2.1 fx503 503 .null rfl rfl rfl rfl,
    claim_C1.2.2.2.2.1 fx404 404 .null rfl rfl rfl,
    rfl, ?_⟩
  exact (claim_C1.2.2.2.2.2 fxWorld404 (.httpStatus 404) (by decide) rfl rfl).imp_left id

/-- Witness for C3: a previously posted id survives a run that posts
three new items. -/
theorem claim_C3_witness :
    "CVE-0" ∈ loadPosted fxWorldPrior.postedFile
    ∧ "CVE-0" ∈ storeAfter fxWorldPrior :=
  ⟨by decide, claim_C3 fxWorldPrior "CVE-0" (by decide)⟩

/-- Witness for C5: the two overlapping responses of `fxNetC5` merge
into three items — "CVE-A" keeps the later record, the id-less record
becomes "UNKNOWN" with empty published and sorts last. -/
theorem claim_C5_witness :
    fetchCves ["q"] fxNetC5 []
        = .ok [fxItem "CVE-B" "2025", fxItem "CVE-A" "2024", fxItem "UNKNOWN" ""]
    ∧ ((([fxItem "CVE-B" "2025", fxItem "CVE-A" "2024", fxItem "UNKNOWN" ""].map
          (fun x => x.cve_id)).Nodup)
      ∧ (∀ x ∈ [fxItem "CVE-B" "2025", fxItem "CVE-A" "2024", fxItem "UNKNOWN" ""],
          lastWith (processedItems ["q"] fxNetC5 []) x.cve_id = some x)
      ∧ (∀ x ∈ processedItems ["q"] fxNetC5 [],
          ∃ y ∈ [fxItem "CVE-B" "2025", fxItem "CVE-A" "2024", fxItem "UNKNOWN" ""],
            y.cve_id = x.cve_id)
      ∧ (∀ y ∈ [fxItem "CVE-B" "2025", fxItem "CVE-A" "2024", fxItem "UNKNOWN" ""],
          ∃ x ∈ processedItems ["q"] fxNetC5 [], x.cve_id = y.cve_id)
      ∧ ([fxItem "CVE-B" "2025", fxItem "CVE-A" "2024", fxItem "UNKNOWN" ""]).Pairwise
          (fun a b => strLe b.published a.published = true)
      ∧ ([fxItem "CVE-B" "2025", fxItem "CVE-A" "2024", fxItem "UNKNOWN" ""]).Pairwise
          (fun a b => a.published = "" → b.published = "")) :=
  ⟨rfl, claim_C5 ["q"] fxNetC5 []
    [fxItem "CVE-B" "2025", fxItem "CVE-A" "2024", fxItem "UNKNOWN" ""] rfl⟩

/-- Witness for C9: two distinct id-less advisories collapse into the
single "UNKNOWN" entry, keeping the later one. -/
theorem claim_C9_witness :
    jGet (JValue.obj [("published", .str "2024")]) "id" = none
    ∧ (normalizeItem (JValue.obj [("published", .str "2024")]) []).cve_id = "UNKNOWN"
    ∧ fetchCves ["q"] fxNetU [] = .ok [fxItem "UNKNOWN" "2025"]
    ∧ (([fxItem "UNKNOWN" "2025"].filter (fun x => x.cve_id == "UNKNOWN")).length ≤ 1
      ∧ ∀ x ∈ [fxItem "UNKNOWN" "2025"], x.cve_id = "UNKNOWN" →
          lastWith (processedItems ["q"] fxNetU []) "UNKNOWN" = some x) :=
  ⟨rfl, claim_C9.1 (JValue.obj [("published", .str "2024")]) [] rfl, rfl,
    claim_C9.2 ["q"] fxNetU [] [fxItem "UNKNOWN" "2025"] rfl⟩

/-- Witness for C8 (amended): a healthy run with everything already
posted still reads the watchlist file exactly twice. -/
theorem claim_C8_witness :
    webhookPresent fxWorldPosted.webhook = true
    ∧ fxWorldPosted.watchlist.queries.isEmpty = false
    ∧ watchlistLoadCount (mainRun fxWorldPosted).events = 2 :=
  ⟨by decide, by decide, claim_C8 fxWorldPosted (by decide) (by decide)⟩

/-- Witness for C2: with three new items and the webhook failing on the
second POST, the run exits 0, attempts exactly two POSTs in order, and
persists a store containing the first id but neither of the others. -/
theorem claim_C2_witness :
    webhookPresent fxWorldFail2.webhook = true
    ∧ fxWorldFail2.watchlist.queries.isEmpty = false
    ∧ (∀ j, j < 1 → fxWorldFail2.slackOk j = true)
    ∧ fxWorldFail2.slackOk 1 = false
    ∧ ((mainRun fxWorldFail2).exit = .code 0
      ∧ slackPosts (mainRun fxWorldFail2).events
          = ((fxItems.filter (fun item =>
              !((loadPosted fxWorldFail2.postedFile).contains item.cve_id))).take 1).map
                (fun it => (formatMessage it, true))
            ++ [(formatMessage ((fxItems.filter (fun item =>
                !((loadPosted fxWorldFail2.postedFile).contains item.cve_id))).get
                  ⟨1, by decide⟩), false)]
      ∧ ∃ S, savedStore (mainRun fxWorldFail2).events = some S
          ∧ (∀ y, y ∈ S ↔ y ∈ loadPosted fxWorldFail2.postedFile
              ∨ y ∈ ((fxItems.filter (fun item =>
                  !((loadPosted fxWorldFail2.postedFile).contains item.cve_id))).take 1).map
                    (fun x => x.cve_id))
          ∧ (∀ j (hj : j < (fxItems.filter (fun item =>
                !((loadPosted fxWorldFail2.postedFile).contains item.cve_id))).length),
              1 ≤ j →
              ((fxItems.filter (fun item =>
                !((loadPosted fxWorldFail2.postedFile).contains item.cve_id))).get
                  ⟨j, hj⟩).cve_id ∉ S)) :=
  ⟨by decide, by decide, by decide, by decide,
    claim_C2 fxWorldFail2 fxItems 1 (by decide) (by decide) rfl (by decide)
      (by decide) (by decide)⟩

/-- Witness for C4: a run whose fetched ids are all already posted is a
no-op that does not touch the store, and a second run seeded with the
store of a fully successful first run is such a no-op. -/
theorem claim_C4_witness :
    ((fxItems.filter (fun item =>
        !((loadPosted fxWorldPosted.postedFile).contains item.cve_id))).isEmpty = true)
    ∧ (mainRun fxWorldPosted
        = { exit := .code 0
            events := [.loadWatchlist, .loadWatchlist,
              .printOut "No new CVEs to post."] }
      ∧ slackPosts (mainRun fxWorldPosted).events = []
      ∧ savedStore (mainRun fxWorldPosted).events = none
      ∧ storeAfter fxWorldPosted = loadPosted fxWorldPosted.postedFile)
    ∧ (∀ n, fxWorld.slackOk n = true)
    ∧ ((mainRun { fxWorld with
          postedFile := .parsed (storeJson "T" (storeAfter fxWorld)) }).exit = .code 0
      ∧ slackPosts (mainRun { fxWorld with
          postedFile := .parsed (storeJson "T" (storeAfter fxWorld)) }).events = []
      ∧ savedStore (mainRun { fxWorld with
          postedFile := .parsed (storeJson "T" (storeAfter fxWorld)) }).events = none
      ∧ storeAfter { fxWorld with
          postedFile := .parsed (storeJson "T" (storeAfter fxWorld)) }
          = loadPosted (.parsed (storeJson "T" (storeAfter fxWorld)))
      ∧ Event.printOut "No new CVEs to post." ∈ (mainRun { fxWorld with
          postedFile := .parsed (storeJson "T" (storeAfter fxWorld)) }).events) :=
  ⟨by decide,
    (claim_C4 fxWorldPosted fxItems (by decide) (by decide) rfl).1 (by decide),
    fun _ => rfl,
    (claim_C4 fxWorld fxItems (by decide) (by decide) rfl).2 (fun _ => rfl) "T"⟩

end CveWatch
